import Mathlib

/-!
Callisto camera controller (`camera.go`)

A shallow embedding of the inertial camera of `camera.go` and a verification
of its specification.

Modelling conventions.

* The package-level variable `CAMERA` is passed explicitly: a Go function that
  mutates it becomes a function `CameraData α → CameraData α`.
* The constants `CAMERA_*` are declared in another file of the package; they
  are the fields of `Config`.
* The functions of `math`, `mgl32` and `gl` that the file calls are the fields
  of `Extern`.
* The input snapshot returned by `getEventKeyState()` is an argument.
* Numbers.  The functions are embedded twice.
  * Exact embedding (`produceInertia`, `consumeInertia`, `updateCamera`, ...):
    `float64` and `float32` are one linearly ordered field `α`, the
    conversions are the identity and `Mat4.Mul4` is the matrix product.  It
    carries the statements that are bounds, orderings, case distinctions or
    structural identities.
  * Rounded embedding (`produceInertiaRounded`, `consumeInertiaRounded`,
    `updateCameraRounded`, ...): the same code with the result of every
    floating-point operation and conversion passed through the rounding of
    its type, `Rounding.r64` or `Rounding.r32`, each operation rounded on its
    own (no fused multiply-add).  It carries the statements about the exact
    value of a result.  `binaryRounding` is round-to-nearest-even of IEEE
    binary64 and binary32 on `ℚ`; with `exactRounding` the rounded embedding
    is the exact one (`updateCameraRounded_exact`).
  Every definition is computable and can be evaluated over `ℚ`.
-/

namespace Callisto

/-- The vector type `mgl32.Vec3`: components `[0]`, `[1]`, `[2]`. -/
structure Vec3 (α : Type) where
  x : α
  y : α
  z : α

/-- The matrix type `mgl32.Mat4`. -/
abbrev Mat4 (α : Type) := Matrix (Fin 4) (Fin 4) α

/-- The record `CameraData`. -/
structure CameraData (α : Type) where
  Camera : Mat4 α
  CameraUniform : Int
  PositionEye : Vec3 α
  PositionTarget : Vec3 α
  InertiaDrag : α
  InertiaTurn : α

/-- The input snapshot read through `getEventKeyState()`. -/
structure EventKeyState (α : Type) where
  MoveUp : Bool
  MoveDown : Bool
  MoveLeft : Bool
  MoveRight : Bool
  MoveTurbo : Bool
  WatchX : α
  WatchY : α

/-- The package constants used by `camera.go` and declared outside it. -/
structure Config (α : Type) where
  CAMERA_DEFAULT_EYE : Vec3 α
  CAMERA_DEFAULT_TARGET : Vec3 α
  CAMERA_MOVE_CELERITY_CRUISE : α
  CAMERA_MOVE_CELERITY_TURBO : α
  CAMERA_INERTIA_PRODUCE_FORWARD : α
  CAMERA_INERTIA_PRODUCE_BACKWARD : α
  CAMERA_INERTIA_CONSUME_FORWARD : α
  CAMERA_INERTIA_CONSUME_BACKWARD : α

/-- The library functions called by `camera.go`: `math.Sqrt`, `math.Cos`,
`math.Pi`, `mgl32.Translate3D`, `mgl32.HomogRotate3D` and
`gl.GetUniformLocation` (for the name `cameraUniform`). -/
structure Extern (α : Type) where
  Sqrt : α → α
  Cos : α → α
  Pi : α
  Translate3D : α → α → α → Mat4 α
  HomogRotate3D : α → Vec3 α → Mat4 α
  GetUniformLocation : Nat → Int

section Accessors

variable {α : Type}

def CameraData.getEyeX (camera_data : CameraData α) : α := camera_data.PositionEye.x

def CameraData.getEyeY (camera_data : CameraData α) : α := camera_data.PositionEye.y

def CameraData.getEyeZ (camera_data : CameraData α) : α := camera_data.PositionEye.z

def CameraData.getTargetX (camera_data : CameraData α) : α := camera_data.PositionTarget.x

def CameraData.getTargetY (camera_data : CameraData α) : α := camera_data.PositionTarget.y

def CameraData.getTargetZ (camera_data : CameraData α) : α := camera_data.PositionTarget.z

def CameraData.moveEyeX [Add α] (camera_data : CameraData α) (increment : α) : CameraData α :=
  { camera_data with
    PositionEye := { camera_data.PositionEye with x := camera_data.PositionEye.x + increment } }

def CameraData.moveEyeY [Add α] (camera_data : CameraData α) (increment : α) : CameraData α :=
  { camera_data with
    PositionEye := { camera_data.PositionEye with y := camera_data.PositionEye.y + increment } }

def CameraData.moveEyeZ [Add α] (camera_data : CameraData α) (increment : α) : CameraData α :=
  { camera_data with
    PositionEye := { camera_data.PositionEye with z := camera_data.PositionEye.z + increment } }

def CameraData.updateTargetX (camera_data : CameraData α) (position : α) : CameraData α :=
  { camera_data with PositionTarget := { camera_data.PositionTarget with x := position } }

def CameraData.updateTargetY (camera_data : CameraData α) (position : α) : CameraData α :=
  { camera_data with PositionTarget := { camera_data.PositionTarget with y := position } }

def CameraData.updateTargetZ (camera_data : CameraData α) (position : α) : CameraData α :=
  { camera_data with PositionTarget := { camera_data.PositionTarget with z := position } }

def CameraData.defaultEye (k : Config α) (camera_data : CameraData α) : CameraData α :=
  { camera_data with PositionEye := k.CAMERA_DEFAULT_EYE }

def CameraData.defaultTarget (k : Config α) (camera_data : CameraData α) : CameraData α :=
  { camera_data with PositionTarget := k.CAMERA_DEFAULT_TARGET }

end Accessors

section Camera

variable {α : Type} [LinearOrderedField α]

/-- The function `createCamera(program)`. -/
def createCamera (e : Extern α) (k : Config α) (program : Nat) (CAMERA : CameraData α) :
    CameraData α :=
  let CAMERA := { CAMERA with CameraUniform := e.GetUniformLocation program }
  let CAMERA := { CAMERA with InertiaDrag := 0 }
  let CAMERA := { CAMERA with InertiaTurn := 0 }
  let CAMERA := CAMERA.defaultEye k
  CAMERA.defaultTarget k

/-- The function `produceInertia(inertia, increment, celerity)`: the result is
the value stored in `*inertia` when it returns. -/
def produceInertia (inertia increment celerity : α) : α :=
  let inertia := inertia + increment * celerity
  if inertia > celerity then celerity
  else if inertia < -1 * celerity then -1 * celerity
  else inertia

/-- The function `consumeInertia(inertia)`: the first component is the value
stored in `*inertia` when it returns, the second is the value returned. -/
def consumeInertia (k : Config α) (inertia : α) : α × α :=
  let inertia :=
    if inertia > 0 then inertia + k.CAMERA_INERTIA_CONSUME_FORWARD
    else if inertia < 0 then inertia + k.CAMERA_INERTIA_CONSUME_BACKWARD
    else inertia
  (inertia, inertia)

/-- The variable `celerity` of `processEventCameraEye` as it stands at the
production calls (lines 151-159). -/
def cameraCelerity (e : Extern α) (k : Config α) (key_state : EventKeyState α) : α :=
  let celerity :=
    if key_state.MoveTurbo = true then k.CAMERA_MOVE_CELERITY_TURBO
    else k.CAMERA_MOVE_CELERITY_CRUISE
  if (key_state.MoveUp = true ∨ key_state.MoveDown = true) ∧
      (key_state.MoveLeft = true ∨ key_state.MoveRight = true) then
    celerity / e.Sqrt 2
  else celerity

/-- The four conditional production calls of `processEventCameraEye`
(lines 164-175). -/
def produceFromKeys (k : Config α) (key_state : EventKeyState α) (celerity : α)
    (CAMERA : CameraData α) : CameraData α :=
  let CAMERA :=
    if key_state.MoveUp = true then
      { CAMERA with
        InertiaDrag := produceInertia CAMERA.InertiaDrag k.CAMERA_INERTIA_PRODUCE_FORWARD celerity }
    else CAMERA
  let CAMERA :=
    if key_state.MoveDown = true then
      { CAMERA with
        InertiaDrag := produceInertia CAMERA.InertiaDrag k.CAMERA_INERTIA_PRODUCE_BACKWARD celerity }
    else CAMERA
  let CAMERA :=
    if key_state.MoveLeft = true then
      { CAMERA with
        InertiaTurn := produceInertia CAMERA.InertiaTurn k.CAMERA_INERTIA_PRODUCE_FORWARD celerity }
    else CAMERA
  if key_state.MoveRight = true then
    { CAMERA with
      InertiaTurn := produceInertia CAMERA.InertiaTurn k.CAMERA_INERTIA_PRODUCE_BACKWARD celerity }
  else CAMERA

/-- The function `processEventCameraEye()`. -/
def processEventCameraEye (e : Extern α) (k : Config α) (key_state : EventKeyState α)
    (CAMERA : CameraData α) : CameraData α :=
  let celerity := cameraCelerity e k key_state
  let target_x := CAMERA.getTargetX
  let CAMERA := produceFromKeys k key_state celerity CAMERA
  let drag := consumeInertia k CAMERA.InertiaDrag
  let CAMERA := { CAMERA with InertiaDrag := drag.1 }
  let CAMERA := CAMERA.moveEyeZ (drag.2 * e.Cos target_x)
  let turn := consumeInertia k CAMERA.InertiaTurn
  let CAMERA := { CAMERA with InertiaTurn := turn.1 }
  let CAMERA := CAMERA.moveEyeX turn.2
  { CAMERA with
    Camera := CAMERA.Camera * e.Translate3D CAMERA.getEyeX CAMERA.getEyeY CAMERA.getEyeZ }

/-- The function `processEventCameraTarget()`. -/
def processEventCameraTarget (e : Extern α) (key_state : EventKeyState α)
    (CAMERA : CameraData α) : CameraData α :=
  let rot_x := -1 * key_state.WatchY * e.Pi * 2
  let rot_y := key_state.WatchX * e.Pi * 2
  let CAMERA := CAMERA.updateTargetX rot_x
  let CAMERA := CAMERA.updateTargetY rot_y
  let CAMERA :=
    { CAMERA with Camera := CAMERA.Camera * e.HomogRotate3D CAMERA.getTargetX ⟨1, 0, 0⟩ }
  let CAMERA :=
    { CAMERA with Camera := CAMERA.Camera * e.HomogRotate3D CAMERA.getTargetY ⟨0, 1, 0⟩ }
  { CAMERA with Camera := CAMERA.Camera * e.HomogRotate3D CAMERA.getTargetZ ⟨0, 0, 1⟩ }

/-- The constant matrix assigned at the start of `updateCamera`
(column-major, as `mgl32.Mat4` literals are). -/
def flipMatrix : Mat4 α :=
  (Matrix.of ![![1, 0, 0, 0], ![0, -1, 0, 0], ![0, 0, 1, 0], ![0, 0, 0, 1]]).transpose

/-- The function `updateCamera()`. -/
def updateCamera (e : Extern α) (k : Config α) (key_state : EventKeyState α)
    (CAMERA : CameraData α) : CameraData α :=
  let CAMERA := { CAMERA with Camera := flipMatrix }
  let CAMERA := processEventCameraEye e k key_state CAMERA
  processEventCameraTarget e key_state CAMERA

/-- The function `resetCamera()`. -/
def resetCamera (k : Config α) (CAMERA : CameraData α) : CameraData α :=
  let CAMERA := CAMERA.defaultEye k
  CAMERA.defaultTarget k

/-- The camera after `createCamera` followed by one `updateCamera` per input
snapshot of the list, in order. -/
def runCamera (e : Extern α) (k : Config α) (program : Nat) (CAMERA : CameraData α)
    (inputs : List (EventKeyState α)) : CameraData α :=
  inputs.foldl (fun s key_state => updateCamera e k key_state s) (createCamera e k program CAMERA)

/-- The value stored in an accumulator after one `produceInertia` call per
increment of the list, in order, all with the same `celerity`. -/
def produceSeq (celerity : α) (inertia : α) (increments : List α) : α :=
  increments.foldl (fun v increment => produceInertia v increment celerity) inertia

end Camera

section Samples

/-- The matrix built by `mgl32.Translate3D` (column-major literal). -/
def mglTranslate3D {α : Type} [Field α] (Tx Ty Tz : α) : Mat4 α :=
  (Matrix.of ![![1, 0, 0, 0], ![0, 1, 0, 0], ![0, 0, 1, 0], ![Tx, Ty, Tz, 1]]).transpose

/-- The matrix built by `mgl32.HomogRotate3D` from the sine `s` and the cosine
`c` of the angle (column-major literal). -/
def mglHomogRotate3D {α : Type} [Field α] (s c : α) (axis : Vec3 α) : Mat4 α :=
  let x := axis.x
  let y := axis.y
  let z := axis.z
  let k := 1 - c
  (Matrix.of ![![x * x * k + c, x * y * k + z * s, x * z * k - y * s, 0],
    ![x * y * k - z * s, y * y * k + c, y * z * k + x * s, 0],
    ![x * z * k + y * s, y * z * k - x * s, z * z * k + c, 0],
    ![0, 0, 0, 1]]).transpose

/-- The library built from a square root, a sine, a cosine and a value of pi:
the matrices are those of `mgl32`, the uniform location is `0`. -/
def libraryOf {α : Type} [Field α] (Sqrt Sin Cos : α → α) (Pi : α) : Extern α where
  Sqrt := Sqrt
  Cos := Cos
  Pi := Pi
  Translate3D := mglTranslate3D
  HomogRotate3D := fun angle axis => mglHomogRotate3D (Sin angle) (Cos angle) axis
  GetUniformLocation := fun _ => 0

/-- Package constants over any field: cruise `1`, turbo `2`, increments
`1/4` and `-1/4`, decay constants `-1/10` and `1/10`, defaults at the origin. -/
def tierConfig (α : Type) [Field α] : Config α where
  CAMERA_DEFAULT_EYE := ⟨0, 0, 0⟩
  CAMERA_DEFAULT_TARGET := ⟨0, 0, 0⟩
  CAMERA_MOVE_CELERITY_CRUISE := 1
  CAMERA_MOVE_CELERITY_TURBO := 2
  CAMERA_INERTIA_PRODUCE_FORWARD := 1 / 4
  CAMERA_INERTIA_PRODUCE_BACKWARD := -1 / 4
  CAMERA_INERTIA_CONSUME_FORWARD := -1 / 10
  CAMERA_INERTIA_CONSUME_BACKWARD := 1 / 10

/-- A camera at the origin, level (pitch `0`), with the given accumulators. -/
def cameraWith {α : Type} [Field α] (drag turn : α) : CameraData α where
  Camera := 1
  CameraUniform := 0
  PositionEye := ⟨0, 0, 0⟩
  PositionTarget := ⟨0, 0, 0⟩
  InertiaDrag := drag
  InertiaTurn := turn

/-- The snapshot with `MoveUp` and `MoveLeft` held, nothing else, no look input. -/
def keysUpLeft (α : Type) [Field α] : EventKeyState α :=
  ⟨true, false, true, false, false, 0, 0⟩

/-- The snapshot with `MoveUp` held, nothing else, no look input. -/
def keysUp (α : Type) [Field α] : EventKeyState α :=
  ⟨true, false, false, false, false, 0, 0⟩

/-- A rational stand-in for the library: `Sqrt` is the `float64` value of
`math.Sqrt(2.0)`, `Pi` the `float32` value of `math.Pi`, sine and cosine are
truncated power series. -/
def sampleExtern : Extern ℚ where
  Sqrt := fun _ => 6369051672525773 / 4503599627370496
  Cos := fun x => 1 - x * x / 2
  Pi := 13176795 / 4194304
  Translate3D := mglTranslate3D
  HomogRotate3D := fun angle axis => mglHomogRotate3D (angle - angle * angle * angle / 6)
    (1 - angle * angle / 2) axis
  GetUniformLocation := fun _ => 0

/-- A sample set of package constants. -/
def sampleConfig : Config ℚ where
  CAMERA_DEFAULT_EYE := ⟨0, 0, 0⟩
  CAMERA_DEFAULT_TARGET := ⟨0, 0, 0⟩
  CAMERA_MOVE_CELERITY_CRUISE := 1
  CAMERA_MOVE_CELERITY_TURBO := 2
  CAMERA_INERTIA_PRODUCE_FORWARD := 1 / 4
  CAMERA_INERTIA_PRODUCE_BACKWARD := -1 / 4
  CAMERA_INERTIA_CONSUME_FORWARD := -1 / 10
  CAMERA_INERTIA_CONSUME_BACKWARD := 1 / 10

/-- A sample camera state. -/
def sampleCamera : CameraData ℚ where
  Camera := 1
  CameraUniform := 0
  PositionEye := ⟨0, 0, 0⟩
  PositionTarget := ⟨0, 0, 0⟩
  InertiaDrag := 1 / 2
  InertiaTurn := -1 / 2

/-- A camera gliding slowly: both accumulators are smaller in magnitude than
the decay constants of `sampleConfig`. -/
def slowCamera : CameraData ℚ where
  Camera := 1
  CameraUniform := 0
  PositionEye := ⟨0, 0, 0⟩
  PositionTarget := ⟨0, 0, 0⟩
  InertiaDrag := 1 / 100
  InertiaTurn := -1 / 100

/-- A configuration whose forward decay outweighs one frame of production:
celerity `10`, increment `1/10`, decay `3/2`. -/
def strongDecayConfig : Config ℚ where
  CAMERA_DEFAULT_EYE := ⟨0, 0, 0⟩
  CAMERA_DEFAULT_TARGET := ⟨0, 0, 0⟩
  CAMERA_MOVE_CELERITY_CRUISE := 10
  CAMERA_MOVE_CELERITY_TURBO := 20
  CAMERA_INERTIA_PRODUCE_FORWARD := 1 / 10
  CAMERA_INERTIA_PRODUCE_BACKWARD := -1 / 10
  CAMERA_INERTIA_CONSUME_FORWARD := -3 / 2
  CAMERA_INERTIA_CONSUME_BACKWARD := 3 / 2

/-- A camera at rest at the origin. -/
def restCamera : CameraData ℚ where
  Camera := 1
  CameraUniform := 0
  PositionEye := ⟨0, 0, 0⟩
  PositionTarget := ⟨0, 0, 0⟩
  InertiaDrag := 0
  InertiaTurn := 0

/-- A configuration whose increments exceed `2`: one production call from the
cap overshoots the opposite cap. -/
def bigIncrementConfig : Config ℚ where
  CAMERA_DEFAULT_EYE := ⟨0, 0, 0⟩
  CAMERA_DEFAULT_TARGET := ⟨0, 0, 0⟩
  CAMERA_MOVE_CELERITY_CRUISE := 1
  CAMERA_MOVE_CELERITY_TURBO := 2
  CAMERA_INERTIA_PRODUCE_FORWARD := 3
  CAMERA_INERTIA_PRODUCE_BACKWARD := -3
  CAMERA_INERTIA_CONSUME_FORWARD := -1 / 10
  CAMERA_INERTIA_CONSUME_BACKWARD := 1 / 10

end Samples

section Holding

variable {α : Type} [LinearOrderedField α]

/-- The number of movement keys held in a snapshot. -/
def heldKeys (key_state : EventKeyState α) : Nat :=
  (if key_state.MoveUp = true then 1 else 0) + (if key_state.MoveDown = true then 1 else 0) +
    (if key_state.MoveLeft = true then 1 else 0) + (if key_state.MoveRight = true then 1 else 0)

/-- The production increment of the key held in a single-key snapshot:
`MoveUp` and `MoveLeft` produce with the forward constant, `MoveDown` and
`MoveRight` with the backward one. -/
def heldIncrement (k : Config α) (key_state : EventKeyState α) : α :=
  if key_state.MoveUp = true ∨ key_state.MoveLeft = true then k.CAMERA_INERTIA_PRODUCE_FORWARD
  else k.CAMERA_INERTIA_PRODUCE_BACKWARD

/-- The accumulator fed by the key held in a single-key snapshot: `MoveUp` and
`MoveDown` feed `InertiaDrag`, `MoveLeft` and `MoveRight` feed `InertiaTurn`. -/
def heldAccumulator (key_state : EventKeyState α) (CAMERA : CameraData α) : α :=
  if key_state.MoveUp = true ∨ key_state.MoveDown = true then CAMERA.InertiaDrag
  else CAMERA.InertiaTurn

/-- The accumulator not fed by the key held in a single-key snapshot. -/
def idleAccumulator (key_state : EventKeyState α) (CAMERA : CameraData α) : α :=
  if key_state.MoveUp = true ∨ key_state.MoveDown = true then CAMERA.InertiaTurn
  else CAMERA.InertiaDrag

/-- The squared Euclidean magnitude of the eye displacement in the X-Z plane
between two camera states. -/
def eyeDisplacementSq (before after : CameraData α) : α :=
  (after.PositionEye.x - before.PositionEye.x) ^ 2 +
    (after.PositionEye.z - before.PositionEye.z) ^ 2

/-- One frame seen from an accumulator whose key alone is held: a production
call with increment `p` and celerity `c`, then the consumption. -/
def holdStep (k : Config α) (p c v : α) : α :=
  (consumeInertia k (produceInertia v p c)).1

end Holding

section SpecSide

variable {α : Type} [LinearOrderedField α]

/-- The clamp of the specification, "clamp result into `[lo, hi]`": values
below `lo` become `lo`, values above `hi` become `hi`, the others are kept. -/
def clampInto (x lo hi : α) : α := max lo (min x hi)

end SpecSide

section Rounding

/-- Round a rational to the nearest binary floating-point number of precision
`p` bits whose exponent is at least `emin` (below it the spacing stays that of
the subnormal numbers), ties to the even mantissa.  No overflow: the exponent
is unbounded above.  `roundBinary 53 (-1022)` is the rounding of `float64`
and `roundBinary 24 (-126)` that of `float32`. -/
def roundBinary (p : Nat) (emin : Int) (x : ℚ) : ℚ :=
  if x = 0 then 0
  else
    let e := Int.log 2 |x|
    let q := max e emin - ((p : Int) - 1)
    let m := x / (2 : ℚ) ^ q
    let f := ⌊m⌋
    let r := m - f
    let n : Int :=
      if r < 1 / 2 then f else if 1 / 2 < r then f + 1 else if f % 2 = 0 then f else f + 1
    n * (2 : ℚ) ^ q

/-- The two roundings of the program: `r64` rounds the exact result of a
`float64` operation, `r32` that of a `float32` operation or of a conversion
`float32(·)`. -/
structure Rounding (α : Type) where
  r64 : α → α
  r32 : α → α

/-- The roundings of IEEE binary64 and binary32. -/
def binaryRounding : Rounding ℚ where
  r64 := roundBinary 53 (-1022)
  r32 := roundBinary 24 (-126)

variable {α : Type} [LinearOrderedField α]

/-- The accessor `moveEyeX` with its `float32` addition rounded. -/
def moveEyeXRounded (R : Rounding α) (camera_data : CameraData α) (increment : α) :
    CameraData α :=
  { camera_data with
    PositionEye :=
      { camera_data.PositionEye with x := R.r32 (camera_data.PositionEye.x + increment) } }

/-- The accessor `moveEyeZ` with its `float32` addition rounded. -/
def moveEyeZRounded (R : Rounding α) (camera_data : CameraData α) (increment : α) :
    CameraData α :=
  { camera_data with
    PositionEye :=
      { camera_data.PositionEye with z := R.r32 (camera_data.PositionEye.z + increment) } }

/-- The function `produceInertia` with every `float64` operation rounded: the
product, the sum and the negation `-1.0 * celerity`. -/
def produceInertiaRounded (R : Rounding α) (inertia increment celerity : α) : α :=
  let inertia := R.r64 (inertia + R.r64 (increment * celerity))
  if inertia > celerity then celerity
  else if inertia < R.r64 (-1 * celerity) then R.r64 (-1 * celerity)
  else inertia

/-- The function `consumeInertia` with its `float64` addition rounded: the
first component is the value stored, the second the value returned. -/
def consumeInertiaRounded (R : Rounding α) (k : Config α) (inertia : α) : α × α :=
  let inertia :=
    if inertia > 0 then R.r64 (inertia + k.CAMERA_INERTIA_CONSUME_FORWARD)
    else if inertia < 0 then R.r64 (inertia + k.CAMERA_INERTIA_CONSUME_BACKWARD)
    else inertia
  (inertia, inertia)

/-- The variable `celerity` of `processEventCameraEye` with the `float64`
division rounded. -/
def cameraCelerityRounded (R : Rounding α) (e : Extern α) (k : Config α)
    (key_state : EventKeyState α) : α :=
  let celerity :=
    if key_state.MoveTurbo = true then k.CAMERA_MOVE_CELERITY_TURBO
    else k.CAMERA_MOVE_CELERITY_CRUISE
  if (key_state.MoveUp = true ∨ key_state.MoveDown = true) ∧
      (key_state.MoveLeft = true ∨ key_state.MoveRight = true) then
    R.r64 (celerity / e.Sqrt 2)
  else celerity

/-- The four conditional production calls of `processEventCameraEye`, rounded. -/
def produceFromKeysRounded (R : Rounding α) (k : Config α) (key_state : EventKeyState α)
    (celerity : α) (CAMERA : CameraData α) : CameraData α :=
  let CAMERA :=
    if key_state.MoveUp = true then
      { CAMERA with
        InertiaDrag :=
          produceInertiaRounded R CAMERA.InertiaDrag k.CAMERA_INERTIA_PRODUCE_FORWARD celerity }
    else CAMERA
  let CAMERA :=
    if key_state.MoveDown = true then
      { CAMERA with
        InertiaDrag :=
          produceInertiaRounded R CAMERA.InertiaDrag k.CAMERA_INERTIA_PRODUCE_BACKWARD celerity }
    else CAMERA
  let CAMERA :=
    if key_state.MoveLeft = true then
      { CAMERA with
        InertiaTurn :=
          produceInertiaRounded R CAMERA.InertiaTurn k.CAMERA_INERTIA_PRODUCE_FORWARD celerity }
    else CAMERA
  if key_state.MoveRight = true then
    { CAMERA with
      InertiaTurn :=
        produceInertiaRounded R CAMERA.InertiaTurn k.CAMERA_INERTIA_PRODUCE_BACKWARD celerity }
  else CAMERA

/-- The method `Mat4.Mul4` of `mgl32` in `float32`: each entry is the sum, from
left to right, of four rounded products. -/
def Mul4Rounded (R : Rounding α) (m1 m2 : Mat4 α) : Mat4 α :=
  Matrix.of fun i j =>
    R.r32 (R.r32 (R.r32 (R.r32 (m1 i 0 * m2 0 j) + R.r32 (m1 i 1 * m2 1 j)) +
      R.r32 (m1 i 2 * m2 2 j)) + R.r32 (m1 i 3 * m2 3 j))

/-- The function `processEventCameraEye()` with its arithmetic rounded: the
product with the cosine in `float64`, the two conversions `float32(·)`, the
two `float32` additions of the eye, the `float32` matrix product. -/
def processEventCameraEyeRounded (R : Rounding α) (e : Extern α) (k : Config α)
    (key_state : EventKeyState α) (CAMERA : CameraData α) : CameraData α :=
  let celerity := cameraCelerityRounded R e k key_state
  let target_x := CAMERA.getTargetX
  let CAMERA := produceFromKeysRounded R k key_state celerity CAMERA
  let drag := consumeInertiaRounded R k CAMERA.InertiaDrag
  let CAMERA := { CAMERA with InertiaDrag := drag.1 }
  let CAMERA := moveEyeZRounded R CAMERA (R.r32 (R.r64 (drag.2 * e.Cos target_x)))
  let turn := consumeInertiaRounded R k CAMERA.InertiaTurn
  let CAMERA := { CAMERA with InertiaTurn := turn.1 }
  let CAMERA := moveEyeXRounded R CAMERA (R.r32 turn.2)
  { CAMERA with
    Camera :=
      Mul4Rounded R CAMERA.Camera
        (e.Translate3D CAMERA.getEyeX CAMERA.getEyeY CAMERA.getEyeZ) }

/-- The function `processEventCameraTarget()` with its `float32` products
rounded. -/
def processEventCameraTargetRounded (R : Rounding α) (e : Extern α)
    (key_state : EventKeyState α) (CAMERA : CameraData α) : CameraData α :=
  let rot_x := R.r32 (R.r32 (R.r32 (-1 * key_state.WatchY) * e.Pi) * 2)
  let rot_y := R.r32 (R.r32 (key_state.WatchX * e.Pi) * 2)
  let CAMERA := CAMERA.updateTargetX rot_x
  let CAMERA := CAMERA.updateTargetY rot_y
  let CAMERA :=
    { CAMERA with
      Camera := Mul4Rounded R CAMERA.Camera (e.HomogRotate3D CAMERA.getTargetX ⟨1, 0, 0⟩) }
  let CAMERA :=
    { CAMERA with
      Camera := Mul4Rounded R CAMERA.Camera (e.HomogRotate3D CAMERA.getTargetY ⟨0, 1, 0⟩) }
  { CAMERA with
    Camera := Mul4Rounded R CAMERA.Camera (e.HomogRotate3D CAMERA.getTargetZ ⟨0, 0, 1⟩) }

/-- The function `updateCamera()` with its arithmetic rounded. -/
def updateCameraRounded (R : Rounding α) (e : Extern α) (k : Config α)
    (key_state : EventKeyState α) (CAMERA : CameraData α) : CameraData α :=
  let CAMERA := { CAMERA with Camera := flipMatrix }
  let CAMERA := processEventCameraEyeRounded R e k key_state CAMERA
  processEventCameraTargetRounded R e key_state CAMERA

/-- Whether none of the four movement keys is held in a snapshot. -/
def noMoveKey (key_state : EventKeyState α) : Bool :=
  !key_state.MoveUp && !key_state.MoveDown && !key_state.MoveLeft && !key_state.MoveRight

/-- The camera after one rounded `updateCamera` per input snapshot of the list,
in order. -/
def runFramesRounded (R : Rounding α) (e : Extern α) (k : Config α) (CAMERA : CameraData α)
    (inputs : List (EventKeyState α)) : CameraData α :=
  inputs.foldl (fun s key_state => updateCameraRounded R e k key_state s) CAMERA

/-- No rounding at all: with it the rounded functions are the exact ones. -/
def exactRounding (α : Type) : Rounding α where
  r64 := id
  r32 := id

end Rounding

section RoundedSamples

/-- Package constants that are binary fractions: cruise `1`, turbo `2`,
increments `1/4` and `-1/4`, decay constants `-1/8` and `1/8`. -/
def dyadicConfig : Config ℚ where
  CAMERA_DEFAULT_EYE := ⟨0, 0, 0⟩
  CAMERA_DEFAULT_TARGET := ⟨0, 0, 0⟩
  CAMERA_MOVE_CELERITY_CRUISE := 1
  CAMERA_MOVE_CELERITY_TURBO := 2
  CAMERA_INERTIA_PRODUCE_FORWARD := 1 / 4
  CAMERA_INERTIA_PRODUCE_BACKWARD := -1 / 4
  CAMERA_INERTIA_CONSUME_FORWARD := -1 / 8
  CAMERA_INERTIA_CONSUME_BACKWARD := 1 / 8

/-- A level camera far along the `z` axis, at `2^24`, gliding forward with
`InertiaDrag = 9/8`. -/
def farCamera : CameraData ℚ where
  Camera := 1
  CameraUniform := 0
  PositionEye := ⟨0, 0, 16777216⟩
  PositionTarget := ⟨0, 0, 0⟩
  InertiaDrag := 9 / 8
  InertiaTurn := 0

/-- The snapshot with no key held and no look input. -/
def keysNone : EventKeyState ℚ := ⟨false, false, false, false, false, 0, 0⟩

end RoundedSamples

/-! ## Theorems -/

section Inertia

variable {α : Type} [LinearOrderedField α]

theorem produceInertia_le (inertia increment celerity : α) (h : 0 ≤ celerity) :
    produceInertia inertia increment celerity ≤ celerity := by
  unfold produceInertia
  simp only
  split_ifs with h1 h2
  · exact le_refl _
  · linarith
  · exact not_lt.mp h1

theorem produceInertia_ge (inertia increment celerity : α) (h : 0 ≤ celerity) :
    -celerity ≤ produceInertia inertia increment celerity := by
  unfold produceInertia
  simp only
  split_ifs with h1 h2
  · linarith
  · linarith
  · have := not_lt.mp h2
    linarith

theorem produceSeq_snoc (celerity inertia : α) (increments : List α) (increment : α) :
    produceSeq celerity inertia (increments ++ [increment])
      = produceInertia (produceSeq celerity inertia increments) increment celerity := by
  simp [produceSeq, List.foldl_append]

/-- C1: for a celerity `≥ 0`, the value stored by one `produceInertia` call
lies in `[-celerity, celerity]` whatever the starting inertia and the
increment; hence so does the value stored after any non-empty sequence of
production calls made with that celerity. -/
theorem produceInertia_clamp_invariant (celerity : α) (h : 0 ≤ celerity) :
    (∀ inertia increment : α,
        -celerity ≤ produceInertia inertia increment celerity ∧
          produceInertia inertia increment celerity ≤ celerity) ∧
      (∀ (inertia : α) (increments : List α), increments ≠ [] →
        -celerity ≤ produceSeq celerity inertia increments ∧
          produceSeq celerity inertia increments ≤ celerity) := by
  refine ⟨fun inertia increment =>
    ⟨produceInertia_ge inertia increment celerity h,
      produceInertia_le inertia increment celerity h⟩, ?_⟩
  intro inertia increments hne
  rcases List.eq_nil_or_concat increments with hnil | ⟨front, last, rfl⟩
  · exact absurd hnil hne
  · rw [List.concat_eq_append, produceSeq_snoc]
    exact ⟨produceInertia_ge _ _ _ h, produceInertia_le _ _ _ h⟩

/-- C1 at celerity `2`, starting inertia `7` and increments `3, -5, 1/4`. -/
theorem produceInertia_clamp_invariant_witness :
    (0 : ℚ) ≤ 2 ∧ -2 ≤ produceSeq (2 : ℚ) 7 [3, -5, 1 / 4] ∧
      produceSeq (2 : ℚ) 7 [3, -5, 1 / 4] ≤ 2 :=
  ⟨by norm_num,
    (produceInertia_clamp_invariant (2 : ℚ) (by norm_num)).2 7 [3, -5, 1 / 4] (by simp)⟩

/-- The stored value and the returned value of `consumeInertia` are the same
number, the decayed one. -/
theorem consumeInertia_eq (k : Config α) (v : α) :
    consumeInertia k v =
      (if v > 0 then (v + k.CAMERA_INERTIA_CONSUME_FORWARD, v + k.CAMERA_INERTIA_CONSUME_FORWARD)
       else if v < 0 then
        (v + k.CAMERA_INERTIA_CONSUME_BACKWARD, v + k.CAMERA_INERTIA_CONSUME_BACKWARD)
       else (v, v)) := by
  unfold consumeInertia
  split_ifs <;> rfl

/-- C2, as stated, fails: on an accumulator holding `1`, with the forward decay
constant `-1/10`, `consumeInertia` returns `9/10`, not `1`. -/
theorem consumeInertia_returns_decayed_counterexample :
    (consumeInertia sampleConfig 1).2 = 9 / 10 ∧ (consumeInertia sampleConfig 1).2 ≠ 1 := by
  rw [consumeInertia_eq]
  norm_num [sampleConfig]

/-- C2, amended: `consumeInertia` returns the accumulator's value as it is after
the decay of this call: the returned value is the new stored value, which is
`v + CAMERA_INERTIA_CONSUME_FORWARD` for `v > 0`,
`v + CAMERA_INERTIA_CONSUME_BACKWARD` for `v < 0` and `v` for `v = 0`. -/
theorem consumeInertia_returns_stored (k : Config α) (v : α) :
    (consumeInertia k v).2 = (consumeInertia k v).1 ∧
      (consumeInertia k v).2 =
        (if v > 0 then v + k.CAMERA_INERTIA_CONSUME_FORWARD
         else if v < 0 then v + k.CAMERA_INERTIA_CONSUME_BACKWARD
         else v) := by
  rw [consumeInertia_eq]
  split_ifs <;> simp

end Inertia

section Celerity

variable {α : Type} [LinearOrderedField α]

/-- C4: the celerity used by `processEventCameraEye` is `base / d`, where `base`
is the turbo celerity when `MoveTurbo` is held and the cruise celerity
otherwise, and `d` is `math.Sqrt(2.0)` exactly when one of `MoveUp`, `MoveDown`
and one of `MoveLeft`, `MoveRight` are held, and `1` otherwise.  With
`MoveTurbo`, `MoveUp` and `MoveLeft` held the celerity is turbo divided by
`math.Sqrt(2.0)`; with only `MoveUp` and `MoveDown` held it is the undivided
cruise celerity. -/
theorem cameraCelerity_spec (e : Extern α) (k : Config α) :
    (∀ key_state : EventKeyState α,
      cameraCelerity e k key_state =
        (if key_state.MoveTurbo = true then k.CAMERA_MOVE_CELERITY_TURBO
          else k.CAMERA_MOVE_CELERITY_CRUISE) /
        (if (key_state.MoveUp = true ∨ key_state.MoveDown = true) ∧
            (key_state.MoveLeft = true ∨ key_state.MoveRight = true) then e.Sqrt 2
          else 1)) ∧
    (∀ (down right : Bool) (wx wy : α),
      cameraCelerity e k ⟨true, down, true, right, true, wx, wy⟩ =
        k.CAMERA_MOVE_CELERITY_TURBO / e.Sqrt 2) ∧
    (∀ wx wy : α,
      cameraCelerity e k ⟨true, true, false, false, false, wx, wy⟩ =
        k.CAMERA_MOVE_CELERITY_CRUISE) := by
  refine ⟨?_, ?_, ?_⟩
  · intro key_state
    unfold cameraCelerity
    split_ifs <;> simp
  · intro down right wx wy
    simp [cameraCelerity]
  · intro wx wy
    simp [cameraCelerity]

end Celerity

section Lifecycle

variable {α : Type}

/-- C6: `resetCamera` sets `PositionEye` to `CAMERA_DEFAULT_EYE` and
`PositionTarget` to `CAMERA_DEFAULT_TARGET`, and leaves `InertiaDrag`,
`InertiaTurn`, the view matrix `Camera` and `CameraUniform` as they were. -/
theorem resetCamera_frame (k : Config α) (CAMERA : CameraData α) :
    (resetCamera k CAMERA).PositionEye = k.CAMERA_DEFAULT_EYE ∧
      (resetCamera k CAMERA).PositionTarget = k.CAMERA_DEFAULT_TARGET ∧
      (resetCamera k CAMERA).InertiaDrag = CAMERA.InertiaDrag ∧
      (resetCamera k CAMERA).InertiaTurn = CAMERA.InertiaTurn ∧
      (resetCamera k CAMERA).Camera = CAMERA.Camera ∧
      (resetCamera k CAMERA).CameraUniform = CAMERA.CameraUniform := by
  simp [resetCamera, CameraData.defaultEye, CameraData.defaultTarget]

end Lifecycle

section Frame

variable {α : Type} [LinearOrderedField α]

/-- The drag accumulator after the production calls of one frame. -/
theorem produceFromKeys_InertiaDrag (k : Config α) (key_state : EventKeyState α) (c : α)
    (CAMERA : CameraData α) :
    (produceFromKeys k key_state c CAMERA).InertiaDrag =
      (if key_state.MoveDown = true then
        produceInertia
          (if key_state.MoveUp = true then
            produceInertia CAMERA.InertiaDrag k.CAMERA_INERTIA_PRODUCE_FORWARD c
           else CAMERA.InertiaDrag)
          k.CAMERA_INERTIA_PRODUCE_BACKWARD c
       else if key_state.MoveUp = true then
        produceInertia CAMERA.InertiaDrag k.CAMERA_INERTIA_PRODUCE_FORWARD c
       else CAMERA.InertiaDrag) := by
  unfold produceFromKeys
  split_ifs <;> rfl

/-- The turn accumulator after the production calls of one frame. -/
theorem produceFromKeys_InertiaTurn (k : Config α) (key_state : EventKeyState α) (c : α)
    (CAMERA : CameraData α) :
    (produceFromKeys k key_state c CAMERA).InertiaTurn =
      (if key_state.MoveRight = true then
        produceInertia
          (if key_state.MoveLeft = true then
            produceInertia CAMERA.InertiaTurn k.CAMERA_INERTIA_PRODUCE_FORWARD c
           else CAMERA.InertiaTurn)
          k.CAMERA_INERTIA_PRODUCE_BACKWARD c
       else if key_state.MoveLeft = true then
        produceInertia CAMERA.InertiaTurn k.CAMERA_INERTIA_PRODUCE_FORWARD c
       else CAMERA.InertiaTurn) := by
  unfold produceFromKeys
  split_ifs <;> rfl

/-- Production leaves every field other than the two accumulators alone. -/
theorem produceFromKeys_rest (k : Config α) (key_state : EventKeyState α) (c : α)
    (CAMERA : CameraData α) :
    (produceFromKeys k key_state c CAMERA).Camera = CAMERA.Camera ∧
      (produceFromKeys k key_state c CAMERA).CameraUniform = CAMERA.CameraUniform ∧
      (produceFromKeys k key_state c CAMERA).PositionEye = CAMERA.PositionEye ∧
      (produceFromKeys k key_state c CAMERA).PositionTarget = CAMERA.PositionTarget := by
  unfold produceFromKeys
  split_ifs <;> simp

/-- The drag accumulator after `updateCamera`: production for the held keys,
then one consumption. -/
theorem updateCamera_InertiaDrag (e : Extern α) (k : Config α) (key_state : EventKeyState α)
    (CAMERA : CameraData α) :
    (updateCamera e k key_state CAMERA).InertiaDrag =
      (consumeInertia k
        (produceFromKeys k key_state (cameraCelerity e k key_state) CAMERA).InertiaDrag).1 := by
  simp [updateCamera, processEventCameraTarget, processEventCameraEye, CameraData.moveEyeX,
    CameraData.moveEyeZ, CameraData.updateTargetX, CameraData.updateTargetY,
    produceFromKeys_InertiaDrag]

/-- The turn accumulator after `updateCamera`: production for the held keys,
then one consumption. -/
theorem updateCamera_InertiaTurn (e : Extern α) (k : Config α) (key_state : EventKeyState α)
    (CAMERA : CameraData α) :
    (updateCamera e k key_state CAMERA).InertiaTurn =
      (consumeInertia k
        (produceFromKeys k key_state (cameraCelerity e k key_state) CAMERA).InertiaTurn).1 := by
  simp [updateCamera, processEventCameraTarget, processEventCameraEye, CameraData.moveEyeX,
    CameraData.moveEyeZ, CameraData.updateTargetX, CameraData.updateTargetY,
    produceFromKeys_InertiaTurn]

end Frame

section Bound

variable {α : Type} [LinearOrderedField α]

/-- With `1 ≤ math.Sqrt(2.0)` the frame celerity lies between `0` and the turbo
celerity. -/
theorem cameraCelerity_range (e : Extern α) (k : Config α) (key_state : EventKeyState α)
    (hs : 1 ≤ e.Sqrt 2) (hc : 0 < k.CAMERA_MOVE_CELERITY_CRUISE)
    (hct : k.CAMERA_MOVE_CELERITY_CRUISE ≤ k.CAMERA_MOVE_CELERITY_TURBO) :
    0 ≤ cameraCelerity e k key_state ∧
      cameraCelerity e k key_state ≤ k.CAMERA_MOVE_CELERITY_TURBO := by
  have ht : 0 ≤ k.CAMERA_MOVE_CELERITY_TURBO := by linarith
  have hs0 : 0 ≤ e.Sqrt 2 := by linarith
  unfold cameraCelerity
  simp only
  split_ifs
  · exact ⟨div_nonneg ht hs0, div_le_self ht hs⟩
  · exact ⟨div_nonneg hc.le hs0, (div_le_self hc.le hs).trans hct⟩
  · exact ⟨ht, le_refl _⟩
  · exact ⟨hc.le, hct⟩

/-- A value within `[-B, B]` stays there under a production call whose celerity
lies in `[0, B]`. -/
theorem produceInertia_within (v increment c B : α) (hc : 0 ≤ c) (hcB : c ≤ B) :
    -B ≤ produceInertia v increment c ∧ produceInertia v increment c ≤ B :=
  ⟨by have := produceInertia_ge v increment c hc; linarith,
    (produceInertia_le v increment c hc).trans hcB⟩

/-- A value within `[-B, B]` stays there under consumption when the decay
constants have the intended signs and magnitude at most `B`. -/
theorem consumeInertia_within (k : Config α) (v B : α)
    (hf : k.CAMERA_INERTIA_CONSUME_FORWARD ≤ 0) (hb : 0 ≤ k.CAMERA_INERTIA_CONSUME_BACKWARD)
    (hfB : -B ≤ k.CAMERA_INERTIA_CONSUME_FORWARD) (hbB : k.CAMERA_INERTIA_CONSUME_BACKWARD ≤ B)
    (hv : -B ≤ v ∧ v ≤ B) :
    -B ≤ (consumeInertia k v).1 ∧ (consumeInertia k v).1 ≤ B := by
  rw [consumeInertia_eq]
  split_ifs with h1 h2
  · constructor <;> simp only <;> linarith [hv.1, hv.2]
  · constructor <;> simp only <;> linarith [hv.1, hv.2]
  · exact hv

/-- One `updateCamera` call keeps both accumulators within the turbo celerity. -/
theorem updateCamera_within (e : Extern α) (k : Config α) (key_state : EventKeyState α)
    (CAMERA : CameraData α)
    (hs : 1 ≤ e.Sqrt 2) (hc : 0 < k.CAMERA_MOVE_CELERITY_CRUISE)
    (hct : k.CAMERA_MOVE_CELERITY_CRUISE ≤ k.CAMERA_MOVE_CELERITY_TURBO)
    (hf : k.CAMERA_INERTIA_CONSUME_FORWARD ≤ 0) (hb : 0 ≤ k.CAMERA_INERTIA_CONSUME_BACKWARD)
    (hfB : -k.CAMERA_MOVE_CELERITY_TURBO ≤ k.CAMERA_INERTIA_CONSUME_FORWARD)
    (hbB : k.CAMERA_INERTIA_CONSUME_BACKWARD ≤ k.CAMERA_MOVE_CELERITY_TURBO)
    (hd : -k.CAMERA_MOVE_CELERITY_TURBO ≤ CAMERA.InertiaDrag ∧
      CAMERA.InertiaDrag ≤ k.CAMERA_MOVE_CELERITY_TURBO)
    (ht : -k.CAMERA_MOVE_CELERITY_TURBO ≤ CAMERA.InertiaTurn ∧
      CAMERA.InertiaTurn ≤ k.CAMERA_MOVE_CELERITY_TURBO) :
    (-k.CAMERA_MOVE_CELERITY_TURBO ≤ (updateCamera e k key_state CAMERA).InertiaDrag ∧
      (updateCamera e k key_state CAMERA).InertiaDrag ≤ k.CAMERA_MOVE_CELERITY_TURBO) ∧
    (-k.CAMERA_MOVE_CELERITY_TURBO ≤ (updateCamera e k key_state CAMERA).InertiaTurn ∧
      (updateCamera e k key_state CAMERA).InertiaTurn ≤ k.CAMERA_MOVE_CELERITY_TURBO) := by
  obtain ⟨c0, cB⟩ := cameraCelerity_range e k key_state hs hc hct
  rw [updateCamera_InertiaDrag, updateCamera_InertiaTurn, produceFromKeys_InertiaDrag,
    produceFromKeys_InertiaTurn]
  constructor
  · apply consumeInertia_within k _ _ hf hb hfB hbB
    split_ifs
    · exact produceInertia_within _ _ _ _ c0 cB
    · exact produceInertia_within _ _ _ _ c0 cB
    · exact produceInertia_within _ _ _ _ c0 cB
    · exact hd
  · apply consumeInertia_within k _ _ hf hb hfB hbB
    split_ifs
    · exact produceInertia_within _ _ _ _ c0 cB
    · exact produceInertia_within _ _ _ _ c0 cB
    · exact produceInertia_within _ _ _ _ c0 cB
    · exact ht

/-- C3: in every state reached from `createCamera` by a finite sequence of
`updateCamera` calls with arbitrary input snapshots, `|InertiaDrag|` and
`|InertiaTurn|` are at most `CAMERA_MOVE_CELERITY_TURBO`, when
`0 < CRUISE ≤ TURBO`, `CONSUME_FORWARD ≤ 0 ≤ CONSUME_BACKWARD`, both decay
constants have magnitude at most the turbo celerity, and the library value
`math.Sqrt(2.0)` is at least `1`. -/
theorem runCamera_inertia_bounded (e : Extern α) (k : Config α)
    (hs : 1 ≤ e.Sqrt 2) (hc : 0 < k.CAMERA_MOVE_CELERITY_CRUISE)
    (hct : k.CAMERA_MOVE_CELERITY_CRUISE ≤ k.CAMERA_MOVE_CELERITY_TURBO)
    (hf : k.CAMERA_INERTIA_CONSUME_FORWARD ≤ 0) (hb : 0 ≤ k.CAMERA_INERTIA_CONSUME_BACKWARD)
    (hfB : |k.CAMERA_INERTIA_CONSUME_FORWARD| ≤ k.CAMERA_MOVE_CELERITY_TURBO)
    (hbB : |k.CAMERA_INERTIA_CONSUME_BACKWARD| ≤ k.CAMERA_MOVE_CELERITY_TURBO)
    (program : Nat) (CAMERA : CameraData α) (inputs : List (EventKeyState α)) :
    |(runCamera e k program CAMERA inputs).InertiaDrag| ≤ k.CAMERA_MOVE_CELERITY_TURBO ∧
      |(runCamera e k program CAMERA inputs).InertiaTurn| ≤ k.CAMERA_MOVE_CELERITY_TURBO := by
  have hT : 0 ≤ k.CAMERA_MOVE_CELERITY_TURBO := by linarith
  have key : ∀ (inputs : List (EventKeyState α)) (s : CameraData α),
      (-k.CAMERA_MOVE_CELERITY_TURBO ≤ s.InertiaDrag ∧
        s.InertiaDrag ≤ k.CAMERA_MOVE_CELERITY_TURBO) →
      (-k.CAMERA_MOVE_CELERITY_TURBO ≤ s.InertiaTurn ∧
        s.InertiaTurn ≤ k.CAMERA_MOVE_CELERITY_TURBO) →
      (-k.CAMERA_MOVE_CELERITY_TURBO ≤
          (inputs.foldl (fun s key_state => updateCamera e k key_state s) s).InertiaDrag ∧
        (inputs.foldl (fun s key_state => updateCamera e k key_state s) s).InertiaDrag ≤
          k.CAMERA_MOVE_CELERITY_TURBO) ∧
      (-k.CAMERA_MOVE_CELERITY_TURBO ≤
          (inputs.foldl (fun s key_state => updateCamera e k key_state s) s).InertiaTurn ∧
        (inputs.foldl (fun s key_state => updateCamera e k key_state s) s).InertiaTurn ≤
          k.CAMERA_MOVE_CELERITY_TURBO) := by
    intro inputs
    induction inputs with
    | nil => intro s hd ht; exact ⟨hd, ht⟩
    | cons key_state rest ih =>
      intro s hd ht
      obtain ⟨hd1, ht1⟩ := updateCamera_within e k key_state s hs hc hct hf hb
        (abs_le.mp hfB).1 (abs_le.mp hbB).2 hd ht
      exact ih _ hd1 ht1
  have h0 := key inputs (createCamera e k program CAMERA)
    (by simp [createCamera, CameraData.defaultEye, CameraData.defaultTarget, hT])
    (by simp [createCamera, CameraData.defaultEye, CameraData.defaultTarget, hT])
  exact ⟨abs_le.mpr h0.1, abs_le.mpr h0.2⟩

/-- C3 at the sample library and constants, for two frames from `sampleCamera`. -/
theorem runCamera_inertia_bounded_witness :
    (1 ≤ sampleExtern.Sqrt 2 ∧ 0 < sampleConfig.CAMERA_MOVE_CELERITY_CRUISE ∧
      sampleConfig.CAMERA_MOVE_CELERITY_CRUISE ≤ sampleConfig.CAMERA_MOVE_CELERITY_TURBO ∧
      sampleConfig.CAMERA_INERTIA_CONSUME_FORWARD ≤ 0 ∧
      0 ≤ sampleConfig.CAMERA_INERTIA_CONSUME_BACKWARD ∧
      |sampleConfig.CAMERA_INERTIA_CONSUME_FORWARD| ≤ sampleConfig.CAMERA_MOVE_CELERITY_TURBO ∧
      |sampleConfig.CAMERA_INERTIA_CONSUME_BACKWARD| ≤ sampleConfig.CAMERA_MOVE_CELERITY_TURBO) ∧
    |(runCamera sampleExtern sampleConfig 0 sampleCamera
        [⟨true, false, true, false, true, 0, 0⟩,
          ⟨false, true, false, false, false, 1 / 8, 0⟩]).InertiaDrag| ≤
        sampleConfig.CAMERA_MOVE_CELERITY_TURBO ∧
      |(runCamera sampleExtern sampleConfig 0 sampleCamera
        [⟨true, false, true, false, true, 0, 0⟩,
          ⟨false, true, false, false, false, 1 / 8, 0⟩]).InertiaTurn| ≤
        sampleConfig.CAMERA_MOVE_CELERITY_TURBO :=
  ⟨by norm_num [sampleExtern, sampleConfig, abs_le],
    runCamera_inertia_bounded sampleExtern sampleConfig
      (by norm_num [sampleExtern]) (by norm_num [sampleConfig]) (by norm_num [sampleConfig])
      (by norm_num [sampleConfig]) (by norm_num [sampleConfig])
      (by norm_num [sampleConfig, abs_le]) (by norm_num [sampleConfig, abs_le]) 0 sampleCamera _⟩

end Bound

section Update

variable {α : Type} [LinearOrderedField α]

/-- The eye position after `updateCamera`: `x` moved by the value returned for
the turn accumulator, `z` by the value returned for the drag accumulator times
the cosine of the pitch held on entry. -/
theorem updateCamera_PositionEye (e : Extern α) (k : Config α) (key_state : EventKeyState α)
    (CAMERA : CameraData α) :
    (updateCamera e k key_state CAMERA).PositionEye =
      ⟨CAMERA.PositionEye.x +
          (consumeInertia k
            (produceFromKeys k key_state (cameraCelerity e k key_state) CAMERA).InertiaTurn).2,
        CAMERA.PositionEye.y,
        CAMERA.PositionEye.z +
          (consumeInertia k
            (produceFromKeys k key_state (cameraCelerity e k key_state) CAMERA).InertiaDrag).2 *
            e.Cos CAMERA.PositionTarget.x⟩ := by
  simp [updateCamera, processEventCameraTarget, processEventCameraEye, CameraData.moveEyeX,
    CameraData.moveEyeZ, CameraData.updateTargetX, CameraData.updateTargetY,
    CameraData.getTargetX, produceFromKeys_InertiaDrag, produceFromKeys_InertiaTurn,
    (produceFromKeys_rest k key_state _ _).2.2.1]

/-- C9: production happens only for held keys.  With `MoveUp` and `MoveDown`
both released, `InertiaDrag` after `updateCamera` is what `consumeInertia`
alone stores for the previous `InertiaDrag`; likewise `InertiaTurn` with
`MoveLeft` and `MoveRight` released.  Whatever the keys, each accumulator after
`updateCamera` is the result of exactly one `consumeInertia` applied to the
accumulator as the production calls left it. -/
theorem updateCamera_production_only_when_held (e : Extern α) (k : Config α)
    (CAMERA : CameraData α) :
    (∀ (left right turbo : Bool) (wx wy : α),
      (updateCamera e k ⟨false, false, left, right, turbo, wx, wy⟩ CAMERA).InertiaDrag =
        (consumeInertia k CAMERA.InertiaDrag).1) ∧
    (∀ (up down turbo : Bool) (wx wy : α),
      (updateCamera e k ⟨up, down, false, false, turbo, wx, wy⟩ CAMERA).InertiaTurn =
        (consumeInertia k CAMERA.InertiaTurn).1) ∧
    (∀ key_state : EventKeyState α,
      (updateCamera e k key_state CAMERA).InertiaDrag =
          (consumeInertia k
            (produceFromKeys k key_state (cameraCelerity e k key_state) CAMERA).InertiaDrag).1 ∧
        (updateCamera e k key_state CAMERA).InertiaTurn =
          (consumeInertia k
            (produceFromKeys k key_state (cameraCelerity e k key_state) CAMERA).InertiaTurn).1) := by
  refine ⟨?_, ?_, ?_⟩
  · intro left right turbo wx wy
    rw [updateCamera_InertiaDrag, produceFromKeys_InertiaDrag]
    simp
  · intro up down turbo wx wy
    rw [updateCamera_InertiaTurn, produceFromKeys_InertiaTurn]
    simp
  · intro key_state
    exact ⟨updateCamera_InertiaDrag e k key_state CAMERA,
      updateCamera_InertiaTurn e k key_state CAMERA⟩

/-- C10: the state after `updateCamera`, the view matrix included, does not
depend on the view matrix before it: two cameras that agree on `PositionEye`,
`PositionTarget`, `InertiaDrag` and `InertiaTurn` (and on the uniform handle)
and differ in `Camera` are taken by the same input snapshot to the same state,
hence to the same `Camera`. -/
theorem updateCamera_independent_of_matrix (e : Extern α) (k : Config α)
    (key_state : EventKeyState α) (m₁ m₂ : Mat4 α) (u : Int) (eye target : Vec3 α)
    (drag turn : α) :
    updateCamera e k key_state ⟨m₁, u, eye, target, drag, turn⟩ =
        updateCamera e k key_state ⟨m₂, u, eye, target, drag, turn⟩ ∧
      (updateCamera e k key_state ⟨m₁, u, eye, target, drag, turn⟩).Camera =
        (updateCamera e k key_state ⟨m₂, u, eye, target, drag, turn⟩).Camera :=
  ⟨rfl, rfl⟩

end Update

section Decay

variable {α : Type} [LinearOrderedField α]

/-- Consumption strictly shrinks `|v|` exactly when `v` is non-zero and more
than half the magnitude of the decay constant of its sign. -/
theorem consumeInertia_abs_lt_iff (k : Config α) (hf : k.CAMERA_INERTIA_CONSUME_FORWARD < 0)
    (hb : 0 < k.CAMERA_INERTIA_CONSUME_BACKWARD) (v : α) :
    |(consumeInertia k v).1| < |v| ↔
      (0 < v ∧ -k.CAMERA_INERTIA_CONSUME_FORWARD < 2 * v) ∨
        (v < 0 ∧ k.CAMERA_INERTIA_CONSUME_BACKWARD < -(2 * v)) := by
  rw [consumeInertia_eq]
  rcases lt_trichotomy v 0 with hv | hv | hv
  · rw [if_neg (not_lt.mpr hv.le), if_pos hv, abs_of_neg hv, abs_lt]
    constructor
    · rintro ⟨h1, h2⟩
      exact Or.inr ⟨hv, by simp only at h2; linarith⟩
    · rintro (⟨h1, _⟩ | ⟨_, h2⟩)
      · exact absurd h1 (not_lt.mpr hv.le)
      · constructor <;> simp only <;> linarith
  · subst hv
    simp
  · rw [if_pos hv, abs_of_pos hv, abs_lt]
    constructor
    · rintro ⟨h1, h2⟩
      exact Or.inl ⟨hv, by simp only at h1; linarith⟩
    · rintro (⟨_, h2⟩ | ⟨h1, _⟩)
      · constructor <;> simp only <;> linarith
      · exact absurd h1 (not_lt.mpr hv.le)

/-- Consumption does not grow `|v|` exactly when `v` is zero or at least half
the magnitude of the decay constant of its sign. -/
theorem consumeInertia_abs_le_iff (k : Config α) (hf : k.CAMERA_INERTIA_CONSUME_FORWARD < 0)
    (hb : 0 < k.CAMERA_INERTIA_CONSUME_BACKWARD) (v : α) :
    |(consumeInertia k v).1| ≤ |v| ↔
      v = 0 ∨ (0 < v ∧ -k.CAMERA_INERTIA_CONSUME_FORWARD ≤ 2 * v) ∨
        (v < 0 ∧ k.CAMERA_INERTIA_CONSUME_BACKWARD ≤ -(2 * v)) := by
  rw [consumeInertia_eq]
  rcases lt_trichotomy v 0 with hv | hv | hv
  · rw [if_neg (not_lt.mpr hv.le), if_pos hv, abs_of_neg hv, abs_le]
    constructor
    · rintro ⟨h1, h2⟩
      exact Or.inr (Or.inr ⟨hv, by simp only at h2; linarith⟩)
    · rintro (h0 | ⟨h1, _⟩ | ⟨_, h2⟩)
      · exact absurd h0 hv.ne
      · exact absurd h1 (not_lt.mpr hv.le)
      · constructor <;> simp only <;> linarith
  · subst hv
    simp
  · rw [if_pos hv, abs_of_pos hv, abs_le]
    constructor
    · rintro ⟨h1, h2⟩
      exact Or.inr (Or.inl ⟨hv, by simp only at h1; linarith⟩)
    · rintro (h0 | ⟨_, h2⟩ | ⟨h1, _⟩)
      · exact absurd h0 hv.ne'
      · constructor <;> simp only <;> linarith
      · exact absurd h1 (not_lt.mpr hv.le)

/-- C7, as stated, fails: with no key held and the decay constants `-1/10` and
`1/10`, an `InertiaDrag` of `1/100` becomes `-9/100`, larger in magnitude. -/
theorem updateCamera_decay_overshoot_counterexample :
    (sampleConfig.CAMERA_INERTIA_CONSUME_FORWARD < 0 ∧
      0 < sampleConfig.CAMERA_INERTIA_CONSUME_BACKWARD) ∧
    (updateCamera sampleExtern sampleConfig ⟨false, false, false, false, false, 0, 0⟩
        slowCamera).InertiaDrag = -9 / 100 ∧
    |slowCamera.InertiaDrag| <
      |(updateCamera sampleExtern sampleConfig ⟨false, false, false, false, false, 0, 0⟩
        slowCamera).InertiaDrag| := by
  rw [updateCamera_InertiaDrag, produceFromKeys_InertiaDrag, consumeInertia_eq]
  norm_num [sampleConfig, slowCamera, abs_of_pos]

/-- C7, amended: with no movement key held and
`CAMERA_INERTIA_CONSUME_FORWARD < 0 < CAMERA_INERTIA_CONSUME_BACKWARD`, an
`updateCamera` call makes `|InertiaDrag|` strictly smaller exactly when the
accumulator is non-zero and twice its magnitude exceeds the magnitude of the
decay constant of its sign, and leaves it no larger exactly when the
accumulator is zero or twice its magnitude is at least that of the decay
constant; the same holds for `InertiaTurn`. -/
theorem updateCamera_decay_without_keys (e : Extern α) (k : Config α)
    (hf : k.CAMERA_INERTIA_CONSUME_FORWARD < 0) (hb : 0 < k.CAMERA_INERTIA_CONSUME_BACKWARD)
    (turbo : Bool) (wx wy : α) (CAMERA : CameraData α) :
    ((|(updateCamera e k ⟨false, false, false, false, turbo, wx, wy⟩ CAMERA).InertiaDrag| <
          |CAMERA.InertiaDrag| ↔
        (0 < CAMERA.InertiaDrag ∧
            -k.CAMERA_INERTIA_CONSUME_FORWARD < 2 * CAMERA.InertiaDrag) ∨
          (CAMERA.InertiaDrag < 0 ∧
            k.CAMERA_INERTIA_CONSUME_BACKWARD < -(2 * CAMERA.InertiaDrag))) ∧
      (|(updateCamera e k ⟨false, false, false, false, turbo, wx, wy⟩ CAMERA).InertiaDrag| ≤
          |CAMERA.InertiaDrag| ↔
        CAMERA.InertiaDrag = 0 ∨
          (0 < CAMERA.InertiaDrag ∧
            -k.CAMERA_INERTIA_CONSUME_FORWARD ≤ 2 * CAMERA.InertiaDrag) ∨
          (CAMERA.InertiaDrag < 0 ∧
            k.CAMERA_INERTIA_CONSUME_BACKWARD ≤ -(2 * CAMERA.InertiaDrag)))) ∧
    ((|(updateCamera e k ⟨false, false, false, false, turbo, wx, wy⟩ CAMERA).InertiaTurn| <
          |CAMERA.InertiaTurn| ↔
        (0 < CAMERA.InertiaTurn ∧
            -k.CAMERA_INERTIA_CONSUME_FORWARD < 2 * CAMERA.InertiaTurn) ∨
          (CAMERA.InertiaTurn < 0 ∧
            k.CAMERA_INERTIA_CONSUME_BACKWARD < -(2 * CAMERA.InertiaTurn))) ∧
      (|(updateCamera e k ⟨false, false, false, false, turbo, wx, wy⟩ CAMERA).InertiaTurn| ≤
          |CAMERA.InertiaTurn| ↔
        CAMERA.InertiaTurn = 0 ∨
          (0 < CAMERA.InertiaTurn ∧
            -k.CAMERA_INERTIA_CONSUME_FORWARD ≤ 2 * CAMERA.InertiaTurn) ∨
          (CAMERA.InertiaTurn < 0 ∧
            k.CAMERA_INERTIA_CONSUME_BACKWARD ≤ -(2 * CAMERA.InertiaTurn)))) := by
  have hd : (updateCamera e k ⟨false, false, false, false, turbo, wx, wy⟩ CAMERA).InertiaDrag =
      (consumeInertia k CAMERA.InertiaDrag).1 := by
    rw [updateCamera_InertiaDrag, produceFromKeys_InertiaDrag]
    simp
  have ht : (updateCamera e k ⟨false, false, false, false, turbo, wx, wy⟩ CAMERA).InertiaTurn =
      (consumeInertia k CAMERA.InertiaTurn).1 := by
    rw [updateCamera_InertiaTurn, produceFromKeys_InertiaTurn]
    simp
  rw [hd, ht]
  exact ⟨⟨consumeInertia_abs_lt_iff k hf hb _, consumeInertia_abs_le_iff k hf hb _⟩,
    ⟨consumeInertia_abs_lt_iff k hf hb _, consumeInertia_abs_le_iff k hf hb _⟩⟩

/-- C7 (amended) at the sample constants and `sampleCamera`, no key held. -/
theorem updateCamera_decay_without_keys_witness :
    (sampleConfig.CAMERA_INERTIA_CONSUME_FORWARD < 0 ∧
      0 < sampleConfig.CAMERA_INERTIA_CONSUME_BACKWARD) ∧
    (|(updateCamera sampleExtern sampleConfig ⟨false, false, false, false, false, 0, 0⟩
          sampleCamera).InertiaDrag| < |sampleCamera.InertiaDrag| ↔
      (0 < sampleCamera.InertiaDrag ∧
          -sampleConfig.CAMERA_INERTIA_CONSUME_FORWARD < 2 * sampleCamera.InertiaDrag) ∨
        (sampleCamera.InertiaDrag < 0 ∧
          sampleConfig.CAMERA_INERTIA_CONSUME_BACKWARD < -(2 * sampleCamera.InertiaDrag))) :=
  ⟨by norm_num [sampleConfig],
    (updateCamera_decay_without_keys sampleExtern sampleConfig (by norm_num [sampleConfig])
      (by norm_num [sampleConfig]) false 0 0 sampleCamera).1.1⟩

end Decay

section HoldKey

variable {α : Type} [LinearOrderedField α]

/-- A held key with a positive increment: from a value in `[0, c + FORWARD]`
one frame does not lower the accumulator and keeps it in that range. -/
theorem holdStep_pos (k : Config α) (p c v : α) (hc : 0 < c) (hp : 0 < p)
    (hfp : -k.CAMERA_INERTIA_CONSUME_FORWARD ≤ p * c)
    (hv0 : 0 ≤ v) (hv : v ≤ c + k.CAMERA_INERTIA_CONSUME_FORWARD) :
    v ≤ holdStep k p c v ∧ 0 ≤ holdStep k p c v ∧
      holdStep k p c v ≤ c + k.CAMERA_INERTIA_CONSUME_FORWARD := by
  have hpc : 0 < p * c := mul_pos hp hc
  unfold holdStep produceInertia
  simp only
  rw [consumeInertia_eq]
  split_ifs <;> simp only <;>
    refine ⟨?_, ?_, ?_⟩ <;> linarith

/-- A held key with a negative increment: from a value in `[-c + BACKWARD, 0]`
one frame does not raise the accumulator and keeps it in that range. -/
theorem holdStep_neg (k : Config α) (p c v : α) (hc : 0 < c) (hp : p < 0)
    (hbp : k.CAMERA_INERTIA_CONSUME_BACKWARD ≤ -(p * c))
    (hv0 : v ≤ 0) (hv : -c + k.CAMERA_INERTIA_CONSUME_BACKWARD ≤ v) :
    holdStep k p c v ≤ v ∧ holdStep k p c v ≤ 0 ∧
      -c + k.CAMERA_INERTIA_CONSUME_BACKWARD ≤ holdStep k p c v := by
  have hpc : p * c < 0 := mul_neg_of_neg_of_pos hp hc
  unfold holdStep produceInertia
  simp only
  rw [consumeInertia_eq]
  split_ifs <;> simp only <;>
    refine ⟨?_, ?_, ?_⟩ <;> linarith

/-- Holding a key with a positive increment from `0`: the accumulator never
decreases and stays in `[0, c]`. -/
theorem holdStep_iterate_pos (k : Config α) (p c : α) (hc : 0 < c) (hp : 0 < p)
    (hfp : -k.CAMERA_INERTIA_CONSUME_FORWARD ≤ p * c)
    (hfc : -k.CAMERA_INERTIA_CONSUME_FORWARD ≤ c) (n : Nat) :
    0 ≤ (holdStep k p c)^[n] 0 ∧
      (holdStep k p c)^[n] 0 ≤ c + k.CAMERA_INERTIA_CONSUME_FORWARD ∧
      (holdStep k p c)^[n] 0 ≤ (holdStep k p c)^[n + 1] 0 := by
  induction n with
  | zero =>
    have h := holdStep_pos k p c 0 hc hp hfp (le_refl _) (by linarith)
    exact ⟨le_refl _, by simp only [Function.iterate_zero, id]; linarith, by simpa using h.2.1⟩
  | succ n ih =>
    have h := holdStep_pos k p c _ hc hp hfp ih.1 ih.2.1
    have h2 := holdStep_pos k p c _ hc hp hfp h.2.1 h.2.2
    simp only [Function.iterate_succ_apply']
    exact ⟨h.2.1, h.2.2, h2.1⟩

/-- Holding a key with a negative increment from `0`: the accumulator never
increases and stays in `[-c, 0]`. -/
theorem holdStep_iterate_neg (k : Config α) (p c : α) (hc : 0 < c) (hp : p < 0)
    (hbp : k.CAMERA_INERTIA_CONSUME_BACKWARD ≤ -(p * c))
    (hbc : k.CAMERA_INERTIA_CONSUME_BACKWARD ≤ c) (n : Nat) :
    (holdStep k p c)^[n] 0 ≤ 0 ∧
      -c + k.CAMERA_INERTIA_CONSUME_BACKWARD ≤ (holdStep k p c)^[n] 0 ∧
      (holdStep k p c)^[n + 1] 0 ≤ (holdStep k p c)^[n] 0 := by
  induction n with
  | zero =>
    have h := holdStep_neg k p c 0 hc hp hbp (le_refl _) (by linarith)
    exact ⟨le_refl _, by simp only [Function.iterate_zero, id]; linarith, by simpa using h.2.1⟩
  | succ n ih =>
    have h := holdStep_neg k p c _ hc hp hbp ih.1 ih.2.1
    have h2 := holdStep_neg k p c _ hc hp hbp h.2.1 h.2.2
    simp only [Function.iterate_succ_apply']
    exact ⟨h.2.1, h.2.2, h2.1⟩

/-- In absolute value: under either sign condition the magnitude of the held
accumulator never decreases from one frame to the next and never exceeds `c`. -/
theorem holdStep_iterate_abs (k : Config α) (p c : α) (hc : 0 < c)
    (hdecay :
      (0 < p ∧ k.CAMERA_INERTIA_CONSUME_FORWARD ≤ 0 ∧
          -k.CAMERA_INERTIA_CONSUME_FORWARD ≤ p * c ∧ -k.CAMERA_INERTIA_CONSUME_FORWARD ≤ c) ∨
        (p < 0 ∧ 0 ≤ k.CAMERA_INERTIA_CONSUME_BACKWARD ∧
          k.CAMERA_INERTIA_CONSUME_BACKWARD ≤ -(p * c) ∧ k.CAMERA_INERTIA_CONSUME_BACKWARD ≤ c))
    (n : Nat) :
    |(holdStep k p c)^[n] 0| ≤ |(holdStep k p c)^[n + 1] 0| ∧
      |(holdStep k p c)^[n + 1] 0| ≤ c := by
  rcases hdecay with ⟨hp, hf, hfp, hfc⟩ | ⟨hp, hb, hbp, hbc⟩
  · have h1 := holdStep_iterate_pos k p c hc hp hfp hfc n
    have h2 := holdStep_iterate_pos k p c hc hp hfp hfc (n + 1)
    rw [abs_of_nonneg h1.1, abs_of_nonneg h2.1]
    exact ⟨h1.2.2, by linarith [h2.2.1]⟩
  · have h1 := holdStep_iterate_neg k p c hc hp hbp hbc n
    have h2 := holdStep_iterate_neg k p c hc hp hbp hbc (n + 1)
    rw [abs_of_nonpos h1.1, abs_of_nonpos h2.1]
    exact ⟨by linarith [h1.2.2], by linarith [h2.2.1]⟩

/-- With exactly one movement key held, `updateCamera` acts on the accumulator
of that key as `holdStep` with the increment of that key and the celerity of
the frame. -/
theorem updateCamera_heldAccumulator (e : Extern α) (k : Config α)
    (key_state : EventKeyState α) (hone : heldKeys key_state = 1) (CAMERA : CameraData α) :
    heldAccumulator key_state (updateCamera e k key_state CAMERA) =
      holdStep k (heldIncrement k key_state) (cameraCelerity e k key_state)
        (heldAccumulator key_state CAMERA) := by
  obtain ⟨up, down, left, right, turbo, wx, wy⟩ := key_state
  unfold heldAccumulator heldIncrement holdStep
  rw [updateCamera_InertiaDrag, updateCamera_InertiaTurn, produceFromKeys_InertiaDrag,
    produceFromKeys_InertiaTurn]
  cases up <;> cases down <;> cases left <;> cases right <;> simp [heldKeys] at hone ⊢

/-- The accumulator of the held key after `n` frames with the same single-key
snapshot. -/
theorem updateCamera_iterate_heldAccumulator (e : Extern α) (k : Config α)
    (key_state : EventKeyState α) (hone : heldKeys key_state = 1) (CAMERA : CameraData α)
    (n : Nat) :
    heldAccumulator key_state ((updateCamera e k key_state)^[n] CAMERA) =
      (holdStep k (heldIncrement k key_state) (cameraCelerity e k key_state))^[n]
        (heldAccumulator key_state CAMERA) := by
  induction n with
  | zero => rfl
  | succ n ih =>
    rw [Function.iterate_succ_apply', Function.iterate_succ_apply',
      updateCamera_heldAccumulator e k key_state hone, ih]

/-- C8, as stated, fails: with celerity `10`, forward increment `1/10` and
decay constants `-3/2` and `3/2`, holding `MoveUp` from rest leaves
`InertiaDrag` at `-1` after the second frame and at `0` after the third, so
its magnitude decreases. -/
theorem hold_key_not_monotone_counterexample :
    (0 < cameraCelerity sampleExtern strongDecayConfig
          ⟨true, false, false, false, false, 0, 0⟩ ∧
      0 < strongDecayConfig.CAMERA_INERTIA_PRODUCE_FORWARD ∧
      strongDecayConfig.CAMERA_INERTIA_CONSUME_FORWARD ≤ 0 ∧
      0 ≤ strongDecayConfig.CAMERA_INERTIA_CONSUME_BACKWARD ∧
      restCamera.InertiaDrag = 0) ∧
    ((updateCamera sampleExtern strongDecayConfig
        ⟨true, false, false, false, false, 0, 0⟩)^[2] restCamera).InertiaDrag = -1 ∧
    ((updateCamera sampleExtern strongDecayConfig
        ⟨true, false, false, false, false, 0, 0⟩)^[3] restCamera).InertiaDrag = 0 ∧
    |((updateCamera sampleExtern strongDecayConfig
        ⟨true, false, false, false, false, 0, 0⟩)^[3] restCamera).InertiaDrag| <
      |((updateCamera sampleExtern strongDecayConfig
        ⟨true, false, false, false, false, 0, 0⟩)^[2] restCamera).InertiaDrag| := by
  have h2 : ((updateCamera sampleExtern strongDecayConfig
      ⟨true, false, false, false, false, 0, 0⟩)^[2] restCamera).InertiaDrag = -1 := by
    simp only [Function.iterate_succ_apply', Function.iterate_zero, id, updateCamera_InertiaDrag,
      produceFromKeys_InertiaDrag, consumeInertia_eq, produceInertia, cameraCelerity]
    norm_num [strongDecayConfig, restCamera]
  have h3 : ((updateCamera sampleExtern strongDecayConfig
      ⟨true, false, false, false, false, 0, 0⟩)^[3] restCamera).InertiaDrag = 0 := by
    rw [Function.iterate_succ_apply', updateCamera_InertiaDrag, produceFromKeys_InertiaDrag, h2]
    simp only [consumeInertia_eq, produceInertia, cameraCelerity]
    norm_num [strongDecayConfig]
  refine ⟨?_, h2, h3, ?_⟩
  · norm_num [cameraCelerity, strongDecayConfig, restCamera]
  · rw [h2, h3]
    norm_num

/-- C8, amended: hold exactly one movement key for consecutive `updateCamera`
frames with the same snapshot, at frame celerity `c > 0`, starting with the
accumulator of that key at `0`.  If the increment of the key is positive, the
forward decay constant is `≤ 0` and its magnitude is at most `increment * c`
and at most `c` (or the increment is negative, the backward decay constant is
`≥ 0` and at most `|increment| * c` and `c`), then the stored `|inertia|` after
each frame is at least its value after the previous frame and never exceeds
`c`. -/
theorem hold_key_monotone_saturating (e : Extern α) (k : Config α)
    (key_state : EventKeyState α) (hone : heldKeys key_state = 1)
    (hc : 0 < cameraCelerity e k key_state)
    (hdecay :
      (0 < heldIncrement k key_state ∧ k.CAMERA_INERTIA_CONSUME_FORWARD ≤ 0 ∧
          -k.CAMERA_INERTIA_CONSUME_FORWARD ≤
            heldIncrement k key_state * cameraCelerity e k key_state ∧
          -k.CAMERA_INERTIA_CONSUME_FORWARD ≤ cameraCelerity e k key_state) ∨
        (heldIncrement k key_state < 0 ∧ 0 ≤ k.CAMERA_INERTIA_CONSUME_BACKWARD ∧
          k.CAMERA_INERTIA_CONSUME_BACKWARD ≤
            -(heldIncrement k key_state * cameraCelerity e k key_state) ∧
          k.CAMERA_INERTIA_CONSUME_BACKWARD ≤ cameraCelerity e k key_state))
    (CAMERA : CameraData α) (h0 : heldAccumulator key_state CAMERA = 0) (n : Nat) :
    |heldAccumulator key_state ((updateCamera e k key_state)^[n] CAMERA)| ≤
        |heldAccumulator key_state ((updateCamera e k key_state)^[n + 1] CAMERA)| ∧
      |heldAccumulator key_state ((updateCamera e k key_state)^[n + 1] CAMERA)| ≤
        cameraCelerity e k key_state := by
  rw [updateCamera_iterate_heldAccumulator e k key_state hone,
    updateCamera_iterate_heldAccumulator e k key_state hone, h0]
  exact holdStep_iterate_abs k _ _ hc hdecay n

/-- C8 (amended) at the sample constants: `MoveUp` held from rest, frames 3 and 4. -/
theorem hold_key_monotone_saturating_witness :
    (heldKeys (⟨true, false, false, false, false, 0, 0⟩ : EventKeyState ℚ) = 1 ∧
      0 < cameraCelerity sampleExtern sampleConfig ⟨true, false, false, false, false, 0, 0⟩ ∧
      heldAccumulator ⟨true, false, false, false, false, 0, 0⟩ restCamera = 0) ∧
    |heldAccumulator ⟨true, false, false, false, false, 0, 0⟩
        ((updateCamera sampleExtern sampleConfig
          ⟨true, false, false, false, false, 0, 0⟩)^[3] restCamera)| ≤
      |heldAccumulator ⟨true, false, false, false, false, 0, 0⟩
        ((updateCamera sampleExtern sampleConfig
          ⟨true, false, false, false, false, 0, 0⟩)^[3 + 1] restCamera)| ∧
    |heldAccumulator ⟨true, false, false, false, false, 0, 0⟩
        ((updateCamera sampleExtern sampleConfig
          ⟨true, false, false, false, false, 0, 0⟩)^[3 + 1] restCamera)| ≤
      cameraCelerity sampleExtern sampleConfig ⟨true, false, false, false, false, 0, 0⟩ :=
  ⟨by norm_num [heldKeys, cameraCelerity, sampleConfig, heldAccumulator, restCamera],
    hold_key_monotone_saturating sampleExtern sampleConfig
      ⟨true, false, false, false, false, 0, 0⟩ (by simp [heldKeys])
      (by norm_num [cameraCelerity, sampleConfig])
      (Or.inl (by norm_num [heldIncrement, cameraCelerity, sampleConfig]))
      restCamera (by simp [heldAccumulator, restCamera]) 3⟩

end HoldKey

section Diagonal

variable {α : Type} [LinearOrderedField α]

/-- At pitch `0` (cosine `1`) the squared eye displacement of a frame is the sum
of the squares of the two values returned by `consumeInertia`. -/
theorem eyeDisplacementSq_updateCamera (e : Extern α) (k : Config α)
    (key_state : EventKeyState α) (CAMERA : CameraData α)
    (hcos : e.Cos CAMERA.PositionTarget.x = 1) :
    eyeDisplacementSq CAMERA (updateCamera e k key_state CAMERA) =
      (consumeInertia k
          (produceFromKeys k key_state (cameraCelerity e k key_state) CAMERA).InertiaTurn).2 ^ 2 +
        (consumeInertia k
          (produceFromKeys k key_state (cameraCelerity e k key_state) CAMERA).InertiaDrag).2 ^ 2 := by
  unfold eyeDisplacementSq
  rw [updateCamera_PositionEye, hcos]
  simp

/-- Consumption of `0` returns `0`. -/
theorem consumeInertia_zero (k : Config α) : consumeInertia k 0 = (0, 0) := by
  rw [consumeInertia_eq]
  simp

/-- Consumption of a positive value returns it moved by the forward constant. -/
theorem consumeInertia_pos (k : Config α) (v : α) (hv : 0 < v) :
    consumeInertia k v =
      (v + k.CAMERA_INERTIA_CONSUME_FORWARD, v + k.CAMERA_INERTIA_CONSUME_FORWARD) := by
  rw [consumeInertia_eq, if_pos hv]

end Diagonal

section RealLibrary

/-- Bounds on the reciprocal of the real square root of two. -/
theorem inv_sqrt_two_bounds :
    (7 / 10 : ℝ) < 1 / Real.sqrt 2 ∧ 1 / Real.sqrt 2 < 8 / 10 ∧
      1 / Real.sqrt 2 = Real.sqrt 2 / 2 := by
  have hs : Real.sqrt 2 * Real.sqrt 2 = 2 := Real.mul_self_sqrt (by norm_num)
  have hpos : 0 < Real.sqrt 2 := Real.sqrt_pos.mpr (by norm_num)
  have heq : 1 / Real.sqrt 2 = Real.sqrt 2 / 2 := by
    field_simp
  rw [heq]
  refine ⟨?_, ?_, rfl⟩ <;> nlinarith

/-- The celerity of the diagonal snapshot under the real library and the sample
tiers is `1 / sqrt 2`. -/
theorem real_celerity_upLeft :
    cameraCelerity (libraryOf Real.sqrt Real.sin Real.cos Real.pi) (tierConfig ℝ)
      (keysUpLeft ℝ) = 1 / Real.sqrt 2 := by
  simp [cameraCelerity, libraryOf, tierConfig, keysUpLeft]

/-- The celerity of the single-key snapshot under the sample tiers is `1`. -/
theorem real_celerity_up :
    cameraCelerity (libraryOf Real.sqrt Real.sin Real.cos Real.pi) (tierConfig ℝ)
      (keysUp ℝ) = 1 := by
  simp [cameraCelerity, tierConfig, keysUp]

/-- Production saturates both accumulators of the steady diagonal camera. -/
theorem real_produce_upLeft :
    (produceFromKeys (tierConfig ℝ) (keysUpLeft ℝ) (1 / Real.sqrt 2)
        (cameraWith (1 / Real.sqrt 2 - 1 / 10) (1 / Real.sqrt 2 - 1 / 10))).InertiaDrag =
      1 / Real.sqrt 2 ∧
    (produceFromKeys (tierConfig ℝ) (keysUpLeft ℝ) (1 / Real.sqrt 2)
        (cameraWith (1 / Real.sqrt 2 - 1 / 10) (1 / Real.sqrt 2 - 1 / 10))).InertiaTurn =
      1 / Real.sqrt 2 := by
  obtain ⟨h1, h2, _⟩ := inv_sqrt_two_bounds
  have hsat : produceInertia (1 / Real.sqrt 2 - 1 / 10) (1 / 4) (1 / Real.sqrt 2) =
      1 / Real.sqrt 2 := by
    unfold produceInertia
    simp only
    rw [if_pos (by linarith)]
  rw [produceFromKeys_InertiaDrag, produceFromKeys_InertiaTurn]
  simp only [keysUpLeft, tierConfig, cameraWith, if_true, Bool.false_eq_true, if_false]
  exact ⟨hsat, hsat⟩

/-- Production saturates the drag accumulator of the steady single-key camera
and leaves the turn accumulator at `0`. -/
theorem real_produce_up :
    (produceFromKeys (tierConfig ℝ) (keysUp ℝ) 1 (cameraWith (9 / 10) 0)).InertiaDrag = 1 ∧
    (produceFromKeys (tierConfig ℝ) (keysUp ℝ) 1 (cameraWith (9 / 10) 0)).InertiaTurn = 0 := by
  rw [produceFromKeys_InertiaDrag, produceFromKeys_InertiaTurn]
  simp only [keysUp, tierConfig, cameraWith, if_true, Bool.false_eq_true, if_false]
  refine ⟨?_, trivial⟩
  unfold produceInertia
  norm_num

/-- C5, as stated, fails.  Real square root and cosine, cruise celerity `1`,
increment `1/4`, decay `-1/10`, pitch `0`.  The camera holding `MoveUp` and
`MoveLeft` in its steady state (both accumulators `1/sqrt 2 - 1/10`, which
production saturates at `1/sqrt 2` and the frame returns to
`1/sqrt 2 - 1/10`) and the camera holding `MoveUp` alone in its steady state
(`InertiaDrag = 9/10`, saturated at `1`) move the eye by different
magnitudes: `2 * (1/sqrt 2 - 1/10)^2` against `(9/10)^2`. -/
theorem diagonal_displacement_counterexample :
    ((cameraWith (1 / Real.sqrt 2 - 1 / 10) (1 / Real.sqrt 2 - 1 / 10)).PositionTarget.x = 0 ∧
      (cameraWith (9 / 10 : ℝ) 0).PositionTarget.x = 0 ∧
      (produceFromKeys (tierConfig ℝ) (keysUpLeft ℝ)
          (cameraCelerity (libraryOf Real.sqrt Real.sin Real.cos Real.pi) (tierConfig ℝ)
            (keysUpLeft ℝ))
          (cameraWith (1 / Real.sqrt 2 - 1 / 10) (1 / Real.sqrt 2 - 1 / 10))).InertiaDrag =
        cameraCelerity (libraryOf Real.sqrt Real.sin Real.cos Real.pi) (tierConfig ℝ)
          (keysUpLeft ℝ) ∧
      (produceFromKeys (tierConfig ℝ) (keysUpLeft ℝ)
          (cameraCelerity (libraryOf Real.sqrt Real.sin Real.cos Real.pi) (tierConfig ℝ)
            (keysUpLeft ℝ))
          (cameraWith (1 / Real.sqrt 2 - 1 / 10) (1 / Real.sqrt 2 - 1 / 10))).InertiaTurn =
        cameraCelerity (libraryOf Real.sqrt Real.sin Real.cos Real.pi) (tierConfig ℝ)
          (keysUpLeft ℝ) ∧
      (produceFromKeys (tierConfig ℝ) (keysUp ℝ)
          (cameraCelerity (libraryOf Real.sqrt Real.sin Real.cos Real.pi) (tierConfig ℝ)
            (keysUp ℝ))
          (cameraWith (9 / 10) 0)).InertiaDrag =
        cameraCelerity (libraryOf Real.sqrt Real.sin Real.cos Real.pi) (tierConfig ℝ)
          (keysUp ℝ) ∧
      (updateCamera (libraryOf Real.sqrt Real.sin Real.cos Real.pi) (tierConfig ℝ)
          (keysUpLeft ℝ)
          (cameraWith (1 / Real.sqrt 2 - 1 / 10) (1 / Real.sqrt 2 - 1 / 10))).InertiaDrag =
        1 / Real.sqrt 2 - 1 / 10 ∧
      (updateCamera (libraryOf Real.sqrt Real.sin Real.cos Real.pi) (tierConfig ℝ)
          (keysUp ℝ) (cameraWith (9 / 10) 0)).InertiaDrag = 9 / 10) ∧
    eyeDisplacementSq (cameraWith (1 / Real.sqrt 2 - 1 / 10) (1 / Real.sqrt 2 - 1 / 10))
        (updateCamera (libraryOf Real.sqrt Real.sin Real.cos Real.pi) (tierConfig ℝ)
          (keysUpLeft ℝ)
          (cameraWith (1 / Real.sqrt 2 - 1 / 10) (1 / Real.sqrt 2 - 1 / 10))) ≠
      eyeDisplacementSq (cameraWith (9 / 10) 0)
        (updateCamera (libraryOf Real.sqrt Real.sin Real.cos Real.pi) (tierConfig ℝ)
          (keysUp ℝ) (cameraWith (9 / 10) 0)) := by
  obtain ⟨h1, h2, h3⟩ := inv_sqrt_two_bounds
  have hs : Real.sqrt 2 * Real.sqrt 2 = 2 := Real.mul_self_sqrt (by norm_num)
  have hcos : (libraryOf Real.sqrt Real.sin Real.cos Real.pi).Cos 0 = 1 := by
    simp [libraryOf]
  have hF : (tierConfig ℝ).CAMERA_INERTIA_CONSUME_FORWARD = -1 / 10 := rfl
  refine ⟨⟨rfl, rfl, ?_, ?_, ?_, ?_, ?_⟩, ?_⟩
  · rw [real_celerity_upLeft]
    exact real_produce_upLeft.1
  · rw [real_celerity_upLeft]
    exact real_produce_upLeft.2
  · rw [real_celerity_up]
    exact real_produce_up.1
  · rw [updateCamera_InertiaDrag, real_celerity_upLeft, real_produce_upLeft.1,
      consumeInertia_pos (tierConfig ℝ) (1 / Real.sqrt 2) (by linarith), hF]
    simp only
    ring
  · rw [updateCamera_InertiaDrag, real_celerity_up, real_produce_up.1,
      consumeInertia_pos (tierConfig ℝ) 1 (by norm_num), hF]
    norm_num
  · rw [eyeDisplacementSq_updateCamera _ _ _ _ hcos, eyeDisplacementSq_updateCamera _ _ _ _ hcos,
      real_celerity_upLeft, real_celerity_up, real_produce_upLeft.1, real_produce_upLeft.2,
      real_produce_up.1, real_produce_up.2,
      consumeInertia_pos (tierConfig ℝ) (1 / Real.sqrt 2) (by linarith),
      consumeInertia_pos (tierConfig ℝ) 1 (by norm_num), consumeInertia_zero, hF, h3]
    simp only
    intro h
    have h5 : Real.sqrt 2 = 21 / 20 := by nlinarith
    rw [h5] at hs
    norm_num at hs

end RealLibrary

section Composition

variable {α : Type} [LinearOrderedField α]

/-- The target orientation after `updateCamera`: `x` and `y` are overwritten
from the look input, `z` is kept. -/
theorem updateCamera_PositionTarget (e : Extern α) (k : Config α) (key_state : EventKeyState α)
    (CAMERA : CameraData α) :
    (updateCamera e k key_state CAMERA).PositionTarget =
      ⟨-1 * key_state.WatchY * e.Pi * 2, key_state.WatchX * e.Pi * 2,
        CAMERA.PositionTarget.z⟩ := by
  simp [updateCamera, processEventCameraTarget, processEventCameraEye, CameraData.moveEyeX,
    CameraData.moveEyeZ, CameraData.updateTargetX, CameraData.updateTargetY,
    (produceFromKeys_rest k key_state _ _).2.2.2]

/-- The constant matrix of `updateCamera` is `diag(1, -1, 1, 1)`. -/
theorem flipMatrix_eq_diagonal : (flipMatrix : Mat4 α) = Matrix.diagonal ![1, -1, 1, 1] := by
  ext i j
  fin_cases i <;> fin_cases j <;> rfl

/-- C11: the view matrix after `updateCamera` is the product
`B * T(e) * Rx(t.x) * Ry(t.y) * Rz(t.z)`, multiplied from left to right, where
`B` is the constant flip matrix `diag(1, -1, 1, 1)`, `T` is
`mgl32.Translate3D`, `R` is `mgl32.HomogRotate3D` about the three axes, `e` is
`PositionEye` after this frame's displacement and `t` is `PositionTarget`
after this frame's look update. -/
theorem updateCamera_view_matrix (e : Extern α) (k : Config α) (key_state : EventKeyState α)
    (CAMERA : CameraData α) :
    (updateCamera e k key_state CAMERA).Camera =
        ((((Matrix.diagonal ![1, -1, 1, 1] : Mat4 α) *
            e.Translate3D (updateCamera e k key_state CAMERA).PositionEye.x
              (updateCamera e k key_state CAMERA).PositionEye.y
              (updateCamera e k key_state CAMERA).PositionEye.z) *
            e.HomogRotate3D (updateCamera e k key_state CAMERA).PositionTarget.x ⟨1, 0, 0⟩) *
            e.HomogRotate3D (updateCamera e k key_state CAMERA).PositionTarget.y ⟨0, 1, 0⟩) *
          e.HomogRotate3D (updateCamera e k key_state CAMERA).PositionTarget.z ⟨0, 0, 1⟩ ∧
      (flipMatrix : Mat4 α) = Matrix.diagonal ![1, -1, 1, 1] := by
  refine ⟨?_, flipMatrix_eq_diagonal⟩
  rw [updateCamera_PositionTarget, updateCamera_PositionEye, ← flipMatrix_eq_diagonal]
  simp [updateCamera, processEventCameraTarget, processEventCameraEye, CameraData.moveEyeX,
    CameraData.moveEyeZ, CameraData.updateTargetX, CameraData.updateTargetY,
    CameraData.getEyeX, CameraData.getEyeY, CameraData.getEyeZ,
    CameraData.getTargetX, CameraData.getTargetY, CameraData.getTargetZ,
    produceFromKeys_rest k key_state _ _, produceFromKeys_InertiaDrag,
    produceFromKeys_InertiaTurn]

/-- C12: after `updateCamera`, `PositionTarget` is
`(-WatchY * 2 * pi, WatchX * 2 * pi, z0)`, `z0` being the `z` component before
the call: `x` and `y` depend on the current look input only, `z` is
unchanged. -/
theorem updateCamera_target_absolute (e : Extern α) (k : Config α)
    (key_state : EventKeyState α) (CAMERA : CameraData α) :
    (updateCamera e k key_state CAMERA).PositionTarget =
      ⟨-key_state.WatchY * (2 * e.Pi), key_state.WatchX * (2 * e.Pi),
        CAMERA.PositionTarget.z⟩ := by
  rw [updateCamera_PositionTarget]
  congr 1 <;> ring

/-- C14: `createCamera` leaves `InertiaDrag = 0`, `InertiaTurn = 0`,
`PositionEye = CAMERA_DEFAULT_EYE` and `PositionTarget = CAMERA_DEFAULT_TARGET`
whatever the camera state was before the call. -/
theorem createCamera_defaults (e : Extern α) (k : Config α) (program : Nat)
    (CAMERA : CameraData α) :
    (createCamera e k program CAMERA).InertiaDrag = 0 ∧
      (createCamera e k program CAMERA).InertiaTurn = 0 ∧
      (createCamera e k program CAMERA).PositionEye = k.CAMERA_DEFAULT_EYE ∧
      (createCamera e k program CAMERA).PositionTarget = k.CAMERA_DEFAULT_TARGET := by
  simp [createCamera, CameraData.defaultEye, CameraData.defaultTarget]

end Composition

section Overshoot

variable {α : Type} [LinearOrderedField α]

/-- C15: consumption can overshoot zero and flip the sign of the accumulator.
With `CAMERA_INERTIA_CONSUME_FORWARD < 0`, every `v` with
`0 < v < -CAMERA_INERTIA_CONSUME_FORWARD` is stored as a strictly negative
value; with `CAMERA_INERTIA_CONSUME_BACKWARD > 0`, every `v` with
`-CAMERA_INERTIA_CONSUME_BACKWARD < v < 0` is stored as a strictly positive
value. -/
theorem consumeInertia_overshoot (k : Config α) (v : α) :
    (k.CAMERA_INERTIA_CONSUME_FORWARD < 0 → 0 < v → v < -k.CAMERA_INERTIA_CONSUME_FORWARD →
      (consumeInertia k v).1 < 0) ∧
    (0 < k.CAMERA_INERTIA_CONSUME_BACKWARD → -k.CAMERA_INERTIA_CONSUME_BACKWARD < v → v < 0 →
      0 < (consumeInertia k v).1) := by
  constructor
  · intro _ h0 h1
    rw [consumeInertia_pos k v h0]
    simp only
    linarith
  · intro _ h1 h0
    rw [consumeInertia_eq, if_neg (not_lt.mpr h0.le), if_pos h0]
    simp only
    linarith

/-- C15 at the sample constants: `1/100` is stored as a negative value and
`-1/100` as a positive one. -/
theorem consumeInertia_overshoot_witness :
    (consumeInertia sampleConfig (1 / 100)).1 < 0 ∧
      0 < (consumeInertia sampleConfig (-1 / 100)).1 :=
  ⟨(consumeInertia_overshoot sampleConfig (1 / 100)).1 (by norm_num [sampleConfig])
      (by norm_num) (by norm_num [sampleConfig]),
    (consumeInertia_overshoot sampleConfig (-1 / 100)).2 (by norm_num [sampleConfig])
      (by norm_num [sampleConfig]) (by norm_num)⟩

/-- C16: for a celerity `≥ 0`, `produceInertia` stores
`clamp(inertia + increment * celerity, -celerity, celerity)`; when the sum lies
in `[-celerity, celerity]` the stored value is the sum itself. -/
theorem produceInertia_eq_clampInto (inertia increment celerity : α) (h : 0 ≤ celerity) :
    produceInertia inertia increment celerity =
        clampInto (inertia + increment * celerity) (-celerity) celerity ∧
      (-celerity ≤ inertia + increment * celerity → inertia + increment * celerity ≤ celerity →
        produceInertia inertia increment celerity = inertia + increment * celerity) := by
  unfold produceInertia clampInto
  simp only [neg_one_mul]
  constructor
  · split_ifs with h1 h2
    · rw [min_eq_right h1.le, max_eq_right (by linarith)]
    · rw [min_eq_left (not_lt.mp h1), max_eq_left h2.le]
    · rw [min_eq_left (not_lt.mp h1), max_eq_right (not_lt.mp h2)]
  · intro hlo hhi
    rw [if_neg (not_lt.mpr hhi), if_neg (not_lt.mpr hlo)]

/-- C16 at inertia `1/2`, increment `1/4`, celerity `1`: the sum `3/4` is kept. -/
theorem produceInertia_eq_clampInto_witness :
    (0 : ℚ) ≤ 1 ∧
      produceInertia (1 / 2 : ℚ) (1 / 4) 1 = clampInto (1 / 2 + 1 / 4 * 1) (-1) 1 :=
  ⟨by norm_num, (produceInertia_eq_clampInto (1 / 2 : ℚ) (1 / 4) 1 (by norm_num)).1⟩

/-- C18: zero is a fixed point of consumption: on an accumulator holding `0`,
`consumeInertia` returns `0` and stores `0`; so a camera with both
accumulators at `0` and no movement key held has the same `PositionEye`, and
both accumulators still `0`, after `updateCamera`. -/
theorem zero_inertia_fixed_point (e : Extern α) (k : Config α) :
    consumeInertia k 0 = (0, 0) ∧
    (∀ (turbo : Bool) (wx wy : α) (CAMERA : CameraData α),
      CAMERA.InertiaDrag = 0 → CAMERA.InertiaTurn = 0 →
      (updateCamera e k ⟨false, false, false, false, turbo, wx, wy⟩ CAMERA).PositionEye =
          CAMERA.PositionEye ∧
        (updateCamera e k ⟨false, false, false, false, turbo, wx, wy⟩ CAMERA).InertiaDrag = 0 ∧
        (updateCamera e k ⟨false, false, false, false, turbo, wx, wy⟩ CAMERA).InertiaTurn = 0) := by
  refine ⟨consumeInertia_zero k, ?_⟩
  intro turbo wx wy CAMERA hd ht
  rw [updateCamera_PositionEye, updateCamera_InertiaDrag, updateCamera_InertiaTurn,
    produceFromKeys_InertiaDrag, produceFromKeys_InertiaTurn]
  simp [hd, ht, consumeInertia_zero]

/-- C18 at the sample library and constants, for the camera at rest. -/
theorem zero_inertia_fixed_point_witness :
    (restCamera.InertiaDrag = 0 ∧ restCamera.InertiaTurn = 0) ∧
    (updateCamera sampleExtern sampleConfig ⟨false, false, false, false, false, 1 / 8, 1 / 16⟩
        restCamera).PositionEye = restCamera.PositionEye :=
  ⟨⟨rfl, rfl⟩,
    ((zero_inertia_fixed_point sampleExtern sampleConfig).2 false (1 / 8) (1 / 16) restCamera
      rfl rfl).1⟩

end Overshoot

section OppositeKeys

variable {α : Type} [LinearOrderedField α]

/-- C19, as stated, fails in both halves.  With celerity `1` and increments
`1/4` and `-1/4`, the accumulator `-9/8` has `|v + f * c| = 7/8 ≤ 1`, yet the
two production calls of `MoveUp` and `MoveDown` leave `-1`, not `-9/8`: the
second call caps at `-c`.  With increments `3` and `-3`, from `v = c = 1` the
two calls leave `-1`, not `c - f * c = -2`. -/
theorem opposite_keys_counterexample :
    ((0 : ℚ) < 1 / 4 ∧ sampleConfig.CAMERA_INERTIA_PRODUCE_FORWARD = 1 / 4 ∧
      sampleConfig.CAMERA_INERTIA_PRODUCE_BACKWARD = -(1 / 4) ∧
      cameraCelerity sampleExtern sampleConfig ⟨true, true, false, false, false, 0, 0⟩ = 1 ∧
      |(-9 / 8 : ℚ) + 1 / 4 * 1| ≤ 1) ∧
    (produceFromKeys sampleConfig ⟨true, true, false, false, false, 0, 0⟩
        (cameraCelerity sampleExtern sampleConfig ⟨true, true, false, false, false, 0, 0⟩)
        (cameraWith (-9 / 8) 0)).InertiaDrag = -1 ∧
    (produceFromKeys sampleConfig ⟨true, true, false, false, false, 0, 0⟩
        (cameraCelerity sampleExtern sampleConfig ⟨true, true, false, false, false, 0, 0⟩)
        (cameraWith (-9 / 8) 0)).InertiaDrag ≠ -9 / 8 ∧
    (bigIncrementConfig.CAMERA_INERTIA_PRODUCE_FORWARD = 3 ∧
      bigIncrementConfig.CAMERA_INERTIA_PRODUCE_BACKWARD = -3 ∧
      cameraCelerity sampleExtern bigIncrementConfig ⟨true, true, false, false, false, 0, 0⟩ = 1) ∧
    (produceFromKeys bigIncrementConfig ⟨true, true, false, false, false, 0, 0⟩
        (cameraCelerity sampleExtern bigIncrementConfig ⟨true, true, false, false, false, 0, 0⟩)
        (cameraWith 1 0)).InertiaDrag = -1 ∧
    (produceFromKeys bigIncrementConfig ⟨true, true, false, false, false, 0, 0⟩
        (cameraCelerity sampleExtern bigIncrementConfig ⟨true, true, false, false, false, 0, 0⟩)
        (cameraWith 1 0)).InertiaDrag ≠ 1 - 3 * 1 := by
  have hc1 : cameraCelerity sampleExtern sampleConfig
      ⟨true, true, false, false, false, 0, 0⟩ = 1 := by
    simp [cameraCelerity, sampleConfig]
  have hc2 : cameraCelerity sampleExtern bigIncrementConfig
      ⟨true, true, false, false, false, 0, 0⟩ = 1 := by
    simp [cameraCelerity, bigIncrementConfig]
  have h1 : (produceFromKeys sampleConfig ⟨true, true, false, false, false, 0, 0⟩ 1
      (cameraWith (-9 / 8) 0)).InertiaDrag = -1 := by
    rw [produceFromKeys_InertiaDrag]
    norm_num [produceInertia, sampleConfig, cameraWith]
  have h2 : (produceFromKeys bigIncrementConfig ⟨true, true, false, false, false, 0, 0⟩ 1
      (cameraWith 1 0)).InertiaDrag = -1 := by
    rw [produceFromKeys_InertiaDrag]
    norm_num [produceInertia, bigIncrementConfig, cameraWith]
  rw [hc1, hc2, h1, h2]
  norm_num [sampleConfig, bigIncrementConfig, abs_le]

end OppositeKeys

section RoundingFacts

/-- Evaluation of `roundBinary` at a non-zero `x` from its binary exponent `e`
and the floor `f` of its scaled mantissa. -/
theorem roundBinary_eval (p : Nat) (emin : Int) (x : ℚ) (e f : Int) (hx : x ≠ 0)
    (he1 : (2 : ℚ) ^ e ≤ |x|) (he2 : |x| < (2 : ℚ) ^ (e + 1))
    (hf1 : (f : ℚ) ≤ x / (2 : ℚ) ^ (max e emin - ((p : Int) - 1)))
    (hf2 : x / (2 : ℚ) ^ (max e emin - ((p : Int) - 1)) < f + 1) :
    roundBinary p emin x =
      ((if x / (2 : ℚ) ^ (max e emin - ((p : Int) - 1)) - f < 1 / 2 then f
        else if 1 / 2 < x / (2 : ℚ) ^ (max e emin - ((p : Int) - 1)) - f then f + 1
        else if f % 2 = 0 then f else f + 1 : Int) : ℚ) *
        (2 : ℚ) ^ (max e emin - ((p : Int) - 1)) := by
  have hpos : 0 < |x| := abs_pos.mpr hx
  have hlog : Int.log 2 |x| = e := by
    have h1 : e ≤ Int.log 2 |x| :=
      (Int.zpow_le_iff_le_log (by norm_num) hpos).mp (by exact_mod_cast he1)
    have h2 : Int.log 2 |x| < e + 1 :=
      (Int.lt_zpow_iff_log_lt (by norm_num) hpos).mp (by exact_mod_cast he2)
    omega
  have hfloor : ⌊x / (2 : ℚ) ^ (max e emin - ((p : Int) - 1))⌋ = f :=
    Int.floor_eq_iff.mpr ⟨hf1, hf2⟩
  unfold roundBinary
  rw [if_neg hx]
  simp only [hlog, hfloor]

/-- The number `1` is a `float64` value. -/
theorem r64_one : binaryRounding.r64 1 = 1 := by
  show roundBinary 53 (-1022) 1 = 1
  rw [roundBinary_eval 53 (-1022) 1 0 4503599627370496 (by norm_num) (by norm_num)
    (by norm_num) (by norm_num) (by norm_num)]
  norm_num

/-- The number `1` is a `float32` value. -/
theorem r32_one : binaryRounding.r32 1 = 1 := by
  show roundBinary 24 (-126) 1 = 1
  rw [roundBinary_eval 24 (-126) 1 0 8388608 (by norm_num) (by norm_num)
    (by norm_num) (by norm_num) (by norm_num)]
  norm_num

/-- In `float32`, `2^24 + 1` rounds to `2^24`: the tie goes to the even
mantissa. -/
theorem r32_absorbs_one : binaryRounding.r32 (16777216 + 1) = 16777216 := by
  show roundBinary 24 (-126) (16777216 + 1) = 16777216
  rw [roundBinary_eval 24 (-126) (16777216 + 1) 24 8388608 (by norm_num)
    (by norm_num [abs_of_pos]) (by norm_num [abs_of_pos]) (by norm_num) (by norm_num)]
  norm_num

/-- In `float64`, `2^-60 - 1/8` rounds to `-1/8`. -/
theorem r64_absorbs_tiny : binaryRounding.r64 (1 / 2 ^ 60 + -1 / 8) = -1 / 8 := by
  show roundBinary 53 (-1022) (1 / 2 ^ 60 + -1 / 8) = -1 / 8
  rw [roundBinary_eval 53 (-1022) (1 / 2 ^ 60 + -1 / 8) (-4) (-9007199254740992) (by norm_num)
    (by norm_num [abs_of_neg]) (by norm_num [abs_of_neg]) (by norm_num) (by norm_num)]
  norm_num

end RoundingFacts

section RoundedFrame

variable {α : Type} [LinearOrderedField α]

/-- The stored and the returned value of the rounded consumption. -/
theorem consumeInertiaRounded_eq (R : Rounding α) (k : Config α) (v : α) :
    consumeInertiaRounded R k v =
      (if v > 0 then
        (R.r64 (v + k.CAMERA_INERTIA_CONSUME_FORWARD), R.r64 (v + k.CAMERA_INERTIA_CONSUME_FORWARD))
       else if v < 0 then
        (R.r64 (v + k.CAMERA_INERTIA_CONSUME_BACKWARD),
          R.r64 (v + k.CAMERA_INERTIA_CONSUME_BACKWARD))
       else (v, v)) := by
  unfold consumeInertiaRounded
  split_ifs <;> rfl

/-- The drag accumulator after the rounded production calls of one frame. -/
theorem produceFromKeysRounded_InertiaDrag (R : Rounding α) (k : Config α)
    (key_state : EventKeyState α) (c : α) (CAMERA : CameraData α) :
    (produceFromKeysRounded R k key_state c CAMERA).InertiaDrag =
      (if key_state.MoveDown = true then
        produceInertiaRounded R
          (if key_state.MoveUp = true then
            produceInertiaRounded R CAMERA.InertiaDrag k.CAMERA_INERTIA_PRODUCE_FORWARD c
           else CAMERA.InertiaDrag)
          k.CAMERA_INERTIA_PRODUCE_BACKWARD c
       else if key_state.MoveUp = true then
        produceInertiaRounded R CAMERA.InertiaDrag k.CAMERA_INERTIA_PRODUCE_FORWARD c
       else CAMERA.InertiaDrag) := by
  unfold produceFromKeysRounded
  split_ifs <;> rfl

/-- The turn accumulator after the rounded production calls of one frame. -/
theorem produceFromKeysRounded_InertiaTurn (R : Rounding α) (k : Config α)
    (key_state : EventKeyState α) (c : α) (CAMERA : CameraData α) :
    (produceFromKeysRounded R k key_state c CAMERA).InertiaTurn =
      (if key_state.MoveRight = true then
        produceInertiaRounded R
          (if key_state.MoveLeft = true then
            produceInertiaRounded R CAMERA.InertiaTurn k.CAMERA_INERTIA_PRODUCE_FORWARD c
           else CAMERA.InertiaTurn)
          k.CAMERA_INERTIA_PRODUCE_BACKWARD c
       else if key_state.MoveLeft = true then
        produceInertiaRounded R CAMERA.InertiaTurn k.CAMERA_INERTIA_PRODUCE_FORWARD c
       else CAMERA.InertiaTurn) := by
  unfold produceFromKeysRounded
  split_ifs <;> rfl

/-- Rounded production leaves every field other than the two accumulators
alone. -/
theorem produceFromKeysRounded_rest (R : Rounding α) (k : Config α)
    (key_state : EventKeyState α) (c : α) (CAMERA : CameraData α) :
    (produceFromKeysRounded R k key_state c CAMERA).Camera = CAMERA.Camera ∧
      (produceFromKeysRounded R k key_state c CAMERA).CameraUniform = CAMERA.CameraUniform ∧
      (produceFromKeysRounded R k key_state c CAMERA).PositionEye = CAMERA.PositionEye ∧
      (produceFromKeysRounded R k key_state c CAMERA).PositionTarget = CAMERA.PositionTarget := by
  unfold produceFromKeysRounded
  split_ifs <;> simp

/-- The drag accumulator after the rounded `updateCamera`. -/
theorem updateCameraRounded_InertiaDrag (R : Rounding α) (e : Extern α) (k : Config α)
    (key_state : EventKeyState α) (CAMERA : CameraData α) :
    (updateCameraRounded R e k key_state CAMERA).InertiaDrag =
      (consumeInertiaRounded R k
        (produceFromKeysRounded R k key_state (cameraCelerityRounded R e k key_state)
          CAMERA).InertiaDrag).1 := by
  simp [updateCameraRounded, processEventCameraTargetRounded, processEventCameraEyeRounded,
    moveEyeXRounded, moveEyeZRounded, CameraData.updateTargetX, CameraData.updateTargetY,
    produceFromKeysRounded_InertiaDrag]

/-- The turn accumulator after the rounded `updateCamera`. -/
theorem updateCameraRounded_InertiaTurn (R : Rounding α) (e : Extern α) (k : Config α)
    (key_state : EventKeyState α) (CAMERA : CameraData α) :
    (updateCameraRounded R e k key_state CAMERA).InertiaTurn =
      (consumeInertiaRounded R k
        (produceFromKeysRounded R k key_state (cameraCelerityRounded R e k key_state)
          CAMERA).InertiaTurn).1 := by
  simp [updateCameraRounded, processEventCameraTargetRounded, processEventCameraEyeRounded,
    moveEyeXRounded, moveEyeZRounded, CameraData.updateTargetX, CameraData.updateTargetY,
    produceFromKeysRounded_InertiaTurn]

/-- The eye position after the rounded `updateCamera`. -/
theorem updateCameraRounded_PositionEye (R : Rounding α) (e : Extern α) (k : Config α)
    (key_state : EventKeyState α) (CAMERA : CameraData α) :
    (updateCameraRounded R e k key_state CAMERA).PositionEye =
      ⟨R.r32 (CAMERA.PositionEye.x +
          R.r32 (consumeInertiaRounded R k
            (produceFromKeysRounded R k key_state (cameraCelerityRounded R e k key_state)
              CAMERA).InertiaTurn).2),
        CAMERA.PositionEye.y,
        R.r32 (CAMERA.PositionEye.z +
          R.r32 (R.r64 ((consumeInertiaRounded R k
            (produceFromKeysRounded R k key_state (cameraCelerityRounded R e k key_state)
              CAMERA).InertiaDrag).2 * e.Cos CAMERA.PositionTarget.x)))⟩ := by
  simp [updateCameraRounded, processEventCameraTargetRounded, processEventCameraEyeRounded,
    moveEyeXRounded, moveEyeZRounded, CameraData.updateTargetX, CameraData.updateTargetY,
    CameraData.getTargetX, produceFromKeysRounded_InertiaDrag,
    produceFromKeysRounded_InertiaTurn, (produceFromKeysRounded_rest R k key_state _ _).2.2.1]

/-- Without rounding, the rounded production is the exact one. -/
theorem produceInertiaRounded_exact (inertia increment celerity : α) :
    produceInertiaRounded (exactRounding α) inertia increment celerity =
      produceInertia inertia increment celerity := by
  simp [produceInertiaRounded, produceInertia, exactRounding]

/-- Without rounding, the rounded consumption is the exact one. -/
theorem consumeInertiaRounded_exact (k : Config α) (inertia : α) :
    consumeInertiaRounded (exactRounding α) k inertia = consumeInertia k inertia := by
  simp [consumeInertiaRounded, consumeInertia, exactRounding]

/-- Without rounding, the rounded matrix product is the matrix product. -/
theorem Mul4Rounded_exact (m1 m2 : Mat4 α) : Mul4Rounded (exactRounding α) m1 m2 = m1 * m2 := by
  ext i j
  simp [Mul4Rounded, exactRounding, Matrix.mul_apply, Fin.sum_univ_four]

/-- Without rounding, the rounded frame is the exact frame. -/
theorem updateCameraRounded_exact (e : Extern α) (k : Config α) (key_state : EventKeyState α)
    (CAMERA : CameraData α) :
    updateCameraRounded (exactRounding α) e k key_state CAMERA =
      updateCamera e k key_state CAMERA := by
  have hc : cameraCelerityRounded (exactRounding α) e k key_state =
      cameraCelerity e k key_state := by
    simp [cameraCelerityRounded, cameraCelerity, exactRounding]
  have hp : ∀ (c : α) (C : CameraData α),
      produceFromKeysRounded (exactRounding α) k key_state c C =
        produceFromKeys k key_state c C := by
    intro c C
    simp [produceFromKeysRounded, produceFromKeys, produceInertiaRounded_exact]
  simp [updateCameraRounded, updateCamera, processEventCameraEyeRounded, processEventCameraEye,
    processEventCameraTargetRounded, processEventCameraTarget, hc, hp,
    consumeInertiaRounded_exact, Mul4Rounded_exact, moveEyeXRounded, moveEyeZRounded,
    CameraData.moveEyeX, CameraData.moveEyeZ]
  simp [exactRounding]

end RoundedFrame

section RoundedEye

/-- The value returned for the drag accumulator of `farCamera` with no key
held is `1`. -/
theorem farCamera_returned_drag :
    (consumeInertiaRounded binaryRounding dyadicConfig
      (produceFromKeysRounded binaryRounding dyadicConfig keysNone
        (cameraCelerityRounded binaryRounding sampleExtern dyadicConfig keysNone)
        farCamera).InertiaDrag).2 = 1 := by
  rw [produceFromKeysRounded_InertiaDrag, consumeInertiaRounded_eq]
  have h : (9 / 8 + -1 / 8 : ℚ) = 1 := by norm_num
  simp only [keysNone, farCamera, dyadicConfig, Bool.false_eq_true, if_false]
  rw [if_pos (by norm_num), h, r64_one]

/-- C13, as stated, fails on the rounded program.  A level camera at
`z = 2^24` with `InertiaDrag = 9/8`, no key held, decay `-1/8`: the value
returned by consuming `InertiaDrag` is `1` and the cosine of the pitch is `1`,
yet the `float32` addition of `moveEyeZ` leaves `z` at `2^24`, not at
`2^24 + 1`. -/
theorem eye_increment_absorbed_counterexample :
    ((consumeInertiaRounded binaryRounding dyadicConfig
        (produceFromKeysRounded binaryRounding dyadicConfig keysNone
          (cameraCelerityRounded binaryRounding sampleExtern dyadicConfig keysNone)
          farCamera).InertiaDrag).2 = 1 ∧
      sampleExtern.Cos farCamera.PositionTarget.x = 1 ∧
      farCamera.PositionEye.z = 16777216) ∧
    (updateCameraRounded binaryRounding sampleExtern dyadicConfig keysNone
        farCamera).PositionEye.z = 16777216 ∧
    (updateCameraRounded binaryRounding sampleExtern dyadicConfig keysNone
        farCamera).PositionEye.z ≠
      farCamera.PositionEye.z +
        (consumeInertiaRounded binaryRounding dyadicConfig
          (produceFromKeysRounded binaryRounding dyadicConfig keysNone
            (cameraCelerityRounded binaryRounding sampleExtern dyadicConfig keysNone)
            farCamera).InertiaDrag).2 * sampleExtern.Cos farCamera.PositionTarget.x := by
  have hcos : sampleExtern.Cos farCamera.PositionTarget.x = 1 := by
    norm_num [sampleExtern, farCamera]
  have hz : (updateCameraRounded binaryRounding sampleExtern dyadicConfig keysNone
      farCamera).PositionEye.z = 16777216 := by
    rw [updateCameraRounded_PositionEye, farCamera_returned_drag, hcos]
    simp only [mul_one]
    rw [r64_one, r32_one]
    exact r32_absorbs_one
  refine ⟨⟨farCamera_returned_drag, hcos, rfl⟩, hz, ?_⟩
  rw [hz, farCamera_returned_drag, hcos]
  norm_num [farCamera]

variable {α : Type} [LinearOrderedField α]

/-- C13, amended: `updateCamera` changes `PositionEye` as follows.  `z` becomes
the `float32` sum of `z` and `float32(r * cos p)`, where `r` is the value
returned by consuming `InertiaDrag`, the product is taken in `float64` and `p`
is the `PositionTarget` `x` component on entry (the pitch of the previous
frame); `x` becomes the `float32` sum of `x` and `float32(r')`, `r'` the value
returned by consuming `InertiaTurn`; `y` is unchanged.  The increase of `z` is
exactly `r * cos p`, and that of `x` exactly `r'`, whenever these roundings
are exact. -/
theorem updateCameraRounded_eye_displacement (R : Rounding α) (e : Extern α) (k : Config α)
    (key_state : EventKeyState α) (CAMERA : CameraData α) :
    (updateCameraRounded R e k key_state CAMERA).PositionEye.z =
        R.r32 (CAMERA.PositionEye.z +
          R.r32 (R.r64 ((consumeInertiaRounded R k
            (produceFromKeysRounded R k key_state (cameraCelerityRounded R e k key_state)
              CAMERA).InertiaDrag).2 * e.Cos CAMERA.PositionTarget.x))) ∧
      (updateCameraRounded R e k key_state CAMERA).PositionEye.x =
        R.r32 (CAMERA.PositionEye.x +
          R.r32 (consumeInertiaRounded R k
            (produceFromKeysRounded R k key_state (cameraCelerityRounded R e k key_state)
              CAMERA).InertiaTurn).2) ∧
      (updateCameraRounded R e k key_state CAMERA).PositionEye.y = CAMERA.PositionEye.y ∧
      (∀ a : α,
        a = (consumeInertiaRounded R k
            (produceFromKeysRounded R k key_state (cameraCelerityRounded R e k key_state)
              CAMERA).InertiaDrag).2 * e.Cos CAMERA.PositionTarget.x →
        R.r64 a = a → R.r32 a = a → R.r32 (CAMERA.PositionEye.z + a) = CAMERA.PositionEye.z + a →
        (updateCameraRounded R e k key_state CAMERA).PositionEye.z =
          CAMERA.PositionEye.z + a) ∧
      (∀ b : α,
        b = (consumeInertiaRounded R k
            (produceFromKeysRounded R k key_state (cameraCelerityRounded R e k key_state)
              CAMERA).InertiaTurn).2 →
        R.r32 b = b → R.r32 (CAMERA.PositionEye.x + b) = CAMERA.PositionEye.x + b →
        (updateCameraRounded R e k key_state CAMERA).PositionEye.x =
          CAMERA.PositionEye.x + b) := by
  rw [updateCameraRounded_PositionEye]
  refine ⟨rfl, rfl, rfl, ?_, ?_⟩
  · intro a ha h64 h32 hsum
    simp only
    rw [← ha, h64, h32, hsum]
  · intro b hb h32 hsum
    simp only
    rw [← hb, h32, hsum]

/-- C13 (amended) at a concrete `float` input: the level camera at the origin
with `InertiaDrag = 9/8`, no key held, decay `-1/8`; the returned value is `1`,
every rounding is exact and `z` goes from `0` to `1`. -/
theorem updateCameraRounded_eye_displacement_witness :
    (binaryRounding.r64 1 = 1 ∧ binaryRounding.r32 1 = 1 ∧
      binaryRounding.r32 ((cameraWith (9 / 8) 0 : CameraData ℚ).PositionEye.z + 1) =
        (cameraWith (9 / 8) 0 : CameraData ℚ).PositionEye.z + 1) ∧
    (updateCameraRounded binaryRounding sampleExtern dyadicConfig keysNone
        (cameraWith (9 / 8) 0)).PositionEye.z =
      (cameraWith (9 / 8) 0 : CameraData ℚ).PositionEye.z + 1 :=
  have hz : binaryRounding.r32 ((cameraWith (9 / 8) 0 : CameraData ℚ).PositionEye.z + 1) =
      (cameraWith (9 / 8) 0 : CameraData ℚ).PositionEye.z + 1 := by
    have h : (cameraWith (9 / 8) 0 : CameraData ℚ).PositionEye.z + 1 = 1 := by
      norm_num [cameraWith]
    rw [h, r32_one]
  ⟨⟨r64_one, r32_one, hz⟩,
    (updateCameraRounded_eye_displacement binaryRounding sampleExtern dyadicConfig keysNone
      (cameraWith (9 / 8) 0)).2.2.2.1 1
      (by
        rw [produceFromKeysRounded_InertiaDrag, consumeInertiaRounded_eq]
        have h : (9 / 8 + -1 / 8 : ℚ) = 1 := by norm_num
        simp only [keysNone, cameraWith, dyadicConfig, Bool.false_eq_true, if_false]
        rw [if_pos (by norm_num), h, r64_one]
        norm_num [sampleExtern])
      r64_one r32_one hz⟩

end RoundedEye

section RoundedDecay

/-- Zero is left alone by the rounding of `float64`. -/
theorem r64_zero : binaryRounding.r64 0 = 0 := by
  show roundBinary 53 (-1022) 0 = 0
  unfold roundBinary
  rw [if_pos rfl]

/-- The number `1/16` is a `float64` value. -/
theorem r64_sixteenth : binaryRounding.r64 (1 / 16) = 1 / 16 := by
  show roundBinary 53 (-1022) (1 / 16) = 1 / 16
  rw [roundBinary_eval 53 (-1022) (1 / 16) (-4) 4503599627370496 (by norm_num)
    (by norm_num [abs_of_pos]) (by norm_num [abs_of_pos]) (by norm_num) (by norm_num)]
  norm_num

/-- The number `-1/16` is a `float64` value. -/
theorem r64_neg_sixteenth : binaryRounding.r64 (-(1 / 16)) = -(1 / 16) := by
  show roundBinary 53 (-1022) (-(1 / 16)) = -(1 / 16)
  rw [roundBinary_eval 53 (-1022) (-(1 / 16)) (-4) (-4503599627370496) (by norm_num)
    (by norm_num [abs_of_neg]) (by norm_num [abs_of_neg]) (by norm_num) (by norm_num)]
  norm_num

/-- Two rounded consumptions of `2^-60` with decay constants `-1/8` and `1/8`:
the first stores `-1/8`, the second `0`. -/
theorem tiny_inertia_consumed :
    (consumeInertiaRounded binaryRounding dyadicConfig (1 / 2 ^ 60)).1 = -1 / 8 ∧
      (consumeInertiaRounded binaryRounding dyadicConfig (-1 / 8)).1 = 0 := by
  constructor
  · rw [consumeInertiaRounded_eq, if_pos (by norm_num)]
    exact r64_absorbs_tiny
  · rw [consumeInertiaRounded_eq, if_neg (by norm_num), if_pos (by norm_num)]
    have h : (-1 / 8 + dyadicConfig.CAMERA_INERTIA_CONSUME_BACKWARD : ℚ) = 0 := by
      norm_num [dyadicConfig]
    simp only [h]
    exact r64_zero

/-- C17, as stated, fails on the rounded program.  Decay constants `1/8` and
`-1/8`, accumulator `v = 2^-60`: the first consumption stores `-1/8` (the sum
`2^-60 - 1/8` rounds to `-1/8` in `float64`), the second stores `0`, not `v`;
with no key held `InertiaDrag` is `0` after two frames and stays `0`. -/
theorem symmetric_decay_absorbed_counterexample :
    (dyadicConfig.CAMERA_INERTIA_CONSUME_BACKWARD = 1 / 8 ∧
      dyadicConfig.CAMERA_INERTIA_CONSUME_FORWARD = -(1 / 8) ∧
      (0 : ℚ) < |1 / 2 ^ 60| ∧ |(1 / 2 ^ 60 : ℚ)| < 1 / 8) ∧
    (consumeInertiaRounded binaryRounding dyadicConfig
      (consumeInertiaRounded binaryRounding dyadicConfig (1 / 2 ^ 60)).1).1 = 0 ∧
    (consumeInertiaRounded binaryRounding dyadicConfig
      (consumeInertiaRounded binaryRounding dyadicConfig (1 / 2 ^ 60)).1).1 ≠ 1 / 2 ^ 60 ∧
    ((updateCameraRounded binaryRounding sampleExtern dyadicConfig keysNone)^[2]
      (cameraWith (1 / 2 ^ 60) 0)).InertiaDrag = 0 ∧
    ((updateCameraRounded binaryRounding sampleExtern dyadicConfig keysNone)^[3]
      (cameraWith (1 / 2 ^ 60) 0)).InertiaDrag = 0 := by
  have h2 : (consumeInertiaRounded binaryRounding dyadicConfig
      (consumeInertiaRounded binaryRounding dyadicConfig (1 / 2 ^ 60)).1).1 = 0 := by
    rw [tiny_inertia_consumed.1, tiny_inertia_consumed.2]
  have hframe : ∀ C : CameraData ℚ,
      (updateCameraRounded binaryRounding sampleExtern dyadicConfig keysNone C).InertiaDrag =
        (consumeInertiaRounded binaryRounding dyadicConfig C.InertiaDrag).1 := by
    intro C
    rw [updateCameraRounded_InertiaDrag, produceFromKeysRounded_InertiaDrag]
    simp [keysNone]
  have hf2 : ((updateCameraRounded binaryRounding sampleExtern dyadicConfig keysNone)^[2]
      (cameraWith (1 / 2 ^ 60) 0)).InertiaDrag = 0 := by
    simp only [Function.iterate_succ_apply', Function.iterate_zero, id, hframe]
    exact h2
  refine ⟨by norm_num [dyadicConfig, abs_of_pos], h2, ?_, hf2, ?_⟩
  · rw [h2]
    norm_num
  · rw [Function.iterate_succ_apply', hframe, hf2, consumeInertiaRounded_eq]
    simp

variable {α : Type} [LinearOrderedField α]

/-- Under symmetric decay, when `v` is a `float64` value and its first decay
step is exact, consumption takes `v` to `w = v ∓ d` and `w` back to `v`; `w`
is non-zero and of the opposite sign. -/
theorem consumeInertiaRounded_flip (R : Rounding α) (k : Config α) (d : α)
    (hb : k.CAMERA_INERTIA_CONSUME_BACKWARD = d) (hf : k.CAMERA_INERTIA_CONSUME_FORWARD = -d)
    (v : α) (hv0 : v ≠ 0) (hv : |v| < d) (hrep : R.r64 v = v)
    (hexact : R.r64 (v + (if 0 < v then -d else d)) = v + (if 0 < v then -d else d)) :
    (consumeInertiaRounded R k v).1 = v + (if 0 < v then -d else d) ∧
      (consumeInertiaRounded R k (v + (if 0 < v then -d else d))).1 = v ∧
      v + (if 0 < v then -d else d) ≠ 0 ∧
      (v + (if 0 < v then -d else d)) * v < 0 := by
  obtain ⟨hlo, hhi⟩ := abs_lt.mp hv
  rcases lt_or_gt_of_ne hv0 with hneg | hpos
  · rw [if_neg (not_lt.mpr hneg.le)] at hexact ⊢
    have hw : 0 < v + d := by linarith
    refine ⟨?_, ?_, hw.ne', mul_neg_of_pos_of_neg hw hneg⟩
    · rw [consumeInertiaRounded_eq, if_neg (not_lt.mpr hneg.le), if_pos hneg, hb, hexact]
    · rw [consumeInertiaRounded_eq, if_pos hw, hf]
      have h : v + d + -d = v := by ring
      simp only [h, hrep]
  · rw [if_pos hpos] at hexact ⊢
    have hw : v + -d < 0 := by linarith
    refine ⟨?_, ?_, hw.ne, mul_neg_of_neg_of_pos hw hpos⟩
    · rw [consumeInertiaRounded_eq, if_pos hpos, hf, hexact]
    · rw [consumeInertiaRounded_eq, if_neg (not_lt.mpr hw.le), if_pos hw, hb]
      have h : v + -d + d = v := by ring
      simp only [h, hrep]

/-- Under the same conditions the iterates of consumption alternate between `v`
and `w = v ∓ d`. -/
theorem consumeInertiaRounded_iterate_alternates (R : Rounding α) (k : Config α) (d : α)
    (hb : k.CAMERA_INERTIA_CONSUME_BACKWARD = d) (hf : k.CAMERA_INERTIA_CONSUME_FORWARD = -d)
    (v : α) (hv0 : v ≠ 0) (hv : |v| < d) (hrep : R.r64 v = v)
    (hexact : R.r64 (v + (if 0 < v then -d else d)) = v + (if 0 < v then -d else d))
    (n : Nat) :
    ((fun w => (consumeInertiaRounded R k w).1)^[n] v = v ∧
        (fun w => (consumeInertiaRounded R k w).1)^[n + 1] v =
          v + (if 0 < v then -d else d)) ∨
      ((fun w => (consumeInertiaRounded R k w).1)^[n] v = v + (if 0 < v then -d else d) ∧
        (fun w => (consumeInertiaRounded R k w).1)^[n + 1] v = v) := by
  obtain ⟨h1, h2, _, _⟩ := consumeInertiaRounded_flip R k d hb hf v hv0 hv hrep hexact
  induction n with
  | zero =>
    left
    exact ⟨rfl, by simpa using h1⟩
  | succ n ih =>
    rcases ih with ⟨_, hb1⟩ | ⟨_, hb1⟩
    · right
      refine ⟨hb1, ?_⟩
      rw [Function.iterate_succ_apply', hb1]
      exact h2
    · left
      refine ⟨hb1, ?_⟩
      rw [Function.iterate_succ_apply', hb1]
      exact h1

/-- With no movement key held, a rounded frame acts on each accumulator as one
rounded consumption. -/
theorem updateCameraRounded_idle (R : Rounding α) (e : Extern α) (k : Config α)
    (key_state : EventKeyState α) (hidle : noMoveKey key_state = true) (CAMERA : CameraData α) :
    (updateCameraRounded R e k key_state CAMERA).InertiaDrag =
        (consumeInertiaRounded R k CAMERA.InertiaDrag).1 ∧
      (updateCameraRounded R e k key_state CAMERA).InertiaTurn =
        (consumeInertiaRounded R k CAMERA.InertiaTurn).1 := by
  obtain ⟨up, down, left, right, turbo, wx, wy⟩ := key_state
  rw [updateCameraRounded_InertiaDrag, updateCameraRounded_InertiaTurn,
    produceFromKeysRounded_InertiaDrag, produceFromKeysRounded_InertiaTurn]
  cases up <;> cases down <;> cases left <;> cases right <;> simp [noMoveKey] at hidle ⊢

/-- Over any sequence of snapshots with no movement key held, the rounded
frames act on each accumulator as that many rounded consumptions. -/
theorem runFramesRounded_idle (R : Rounding α) (e : Extern α) (k : Config α)
    (inputs : List (EventKeyState α)) (hidle : ∀ key_state ∈ inputs, noMoveKey key_state = true)
    (CAMERA : CameraData α) :
    (runFramesRounded R e k CAMERA inputs).InertiaDrag =
        (fun w => (consumeInertiaRounded R k w).1)^[inputs.length] CAMERA.InertiaDrag ∧
      (runFramesRounded R e k CAMERA inputs).InertiaTurn =
        (fun w => (consumeInertiaRounded R k w).1)^[inputs.length] CAMERA.InertiaTurn := by
  induction inputs generalizing CAMERA with
  | nil => exact ⟨rfl, rfl⟩
  | cons key_state rest ih =>
    have hhead := updateCameraRounded_idle R e k key_state
      (hidle key_state (List.mem_cons_self _ _)) CAMERA
    have hrest := ih (fun ks hks => hidle ks (List.mem_cons_of_mem _ hks))
      (updateCameraRounded R e k key_state CAMERA)
    simp only [runFramesRounded, List.foldl_cons, List.length_cons,
      Function.iterate_succ_apply] at hrest ⊢
    rw [hhead.1, hhead.2] at hrest
    exact hrest

/-- C17, amended: with symmetric decay constants
`CAMERA_INERTIA_CONSUME_BACKWARD = -CAMERA_INERTIA_CONSUME_FORWARD = d`, for
every `float64` value `v` with `0 < |v| < d` whose first decay step is exact
(`v - d` for `v > 0`, `v + d` for `v < 0`, is computed without rounding), two
successive `consumeInertia` calls return the accumulator to exactly `v`; hence
over any sequence of frames with no movement key held (whatever the turbo key
and the look input of each frame) an accumulator holding such a `v` is never
`0`, changes sign at every frame and has period two. -/
theorem symmetric_decay_oscillates_when_exact (R : Rounding α) (e : Extern α) (k : Config α)
    (d : α)
    (hb : k.CAMERA_INERTIA_CONSUME_BACKWARD = d) (hf : k.CAMERA_INERTIA_CONSUME_FORWARD = -d)
    (v : α) (hv0 : v ≠ 0) (hv : |v| < d) (hrep : R.r64 v = v)
    (hexact : R.r64 (v + (if 0 < v then -d else d)) = v + (if 0 < v then -d else d)) :
    (consumeInertiaRounded R k (consumeInertiaRounded R k v).1).1 = v ∧
    (∀ (CAMERA : CameraData α) (inputs : List (EventKeyState α)) (next after : EventKeyState α),
      CAMERA.InertiaDrag = v → (∀ key_state ∈ inputs, noMoveKey key_state = true) →
      noMoveKey next = true → noMoveKey after = true →
      (runFramesRounded R e k CAMERA inputs).InertiaDrag ≠ 0 ∧
      (runFramesRounded R e k CAMERA (inputs ++ [next])).InertiaDrag *
        (runFramesRounded R e k CAMERA inputs).InertiaDrag < 0 ∧
      (runFramesRounded R e k CAMERA (inputs ++ [next, after])).InertiaDrag =
        (runFramesRounded R e k CAMERA inputs).InertiaDrag) ∧
    (∀ (CAMERA : CameraData α) (inputs : List (EventKeyState α)) (next after : EventKeyState α),
      CAMERA.InertiaTurn = v → (∀ key_state ∈ inputs, noMoveKey key_state = true) →
      noMoveKey next = true → noMoveKey after = true →
      (runFramesRounded R e k CAMERA inputs).InertiaTurn ≠ 0 ∧
      (runFramesRounded R e k CAMERA (inputs ++ [next])).InertiaTurn *
        (runFramesRounded R e k CAMERA inputs).InertiaTurn < 0 ∧
      (runFramesRounded R e k CAMERA (inputs ++ [next, after])).InertiaTurn =
        (runFramesRounded R e k CAMERA inputs).InertiaTurn) := by
  obtain ⟨h1, h2, hw0, hwv⟩ := consumeInertiaRounded_flip R k d hb hf v hv0 hv hrep hexact
  have key : ∀ n : Nat,
      (fun w => (consumeInertiaRounded R k w).1)^[n] v ≠ 0 ∧
      (fun w => (consumeInertiaRounded R k w).1)^[n + 1] v *
        (fun w => (consumeInertiaRounded R k w).1)^[n] v < 0 ∧
      (fun w => (consumeInertiaRounded R k w).1)^[n + 2] v =
        (fun w => (consumeInertiaRounded R k w).1)^[n] v := by
    intro n
    have hstep : (fun w => (consumeInertiaRounded R k w).1)^[n + 2] v =
        (consumeInertiaRounded R k ((fun w => (consumeInertiaRounded R k w).1)^[n + 1] v)).1 :=
      Function.iterate_succ_apply' _ _ _
    rcases consumeInertiaRounded_iterate_alternates R k d hb hf v hv0 hv hrep hexact n with
      ⟨ha, hb1⟩ | ⟨ha, hb1⟩
    · refine ⟨by rw [ha]; exact hv0, by rw [ha, hb1]; exact hwv, ?_⟩
      rw [hstep, hb1, ha, h2]
    · refine ⟨by rw [ha]; exact hw0, by rw [ha, hb1, mul_comm]; exact hwv, ?_⟩
      rw [hstep, hb1, ha, h1]
  have hall1 : ∀ (inputs : List (EventKeyState α)) (next : EventKeyState α),
      (∀ key_state ∈ inputs, noMoveKey key_state = true) → noMoveKey next = true →
      ∀ key_state ∈ inputs ++ [next], noMoveKey key_state = true := by
    intro inputs next hin hn ks hks
    rcases List.mem_append.mp hks with h | h
    · exact hin ks h
    · rw [List.mem_singleton.mp h]
      exact hn
  have hall2 : ∀ (inputs : List (EventKeyState α)) (next after : EventKeyState α),
      (∀ key_state ∈ inputs, noMoveKey key_state = true) → noMoveKey next = true →
      noMoveKey after = true →
      ∀ key_state ∈ inputs ++ [next, after], noMoveKey key_state = true := by
    intro inputs next after hin hn ha ks hks
    rcases List.mem_append.mp hks with h | h
    · exact hin ks h
    · rcases List.mem_cons.mp h with h | h
      · rw [h]
        exact hn
      · rw [List.mem_singleton.mp h]
        exact ha
  refine ⟨by rw [h1, h2], ?_, ?_⟩
  · intro CAMERA inputs next after hC hin hn ha
    rw [(runFramesRounded_idle R e k inputs hin CAMERA).1,
      (runFramesRounded_idle R e k _ (hall1 inputs next hin hn) CAMERA).1,
      (runFramesRounded_idle R e k _ (hall2 inputs next after hin hn ha) CAMERA).1, hC]
    simp only [List.length_append, List.length_cons, List.length_nil]
    exact key inputs.length
  · intro CAMERA inputs next after hC hin hn ha
    rw [(runFramesRounded_idle R e k inputs hin CAMERA).2,
      (runFramesRounded_idle R e k _ (hall1 inputs next hin hn) CAMERA).2,
      (runFramesRounded_idle R e k _ (hall2 inputs next after hin hn ha) CAMERA).2, hC]
    simp only [List.length_append, List.length_cons, List.length_nil]
    exact key inputs.length

/-- C17 (amended) at `float64` values: decay constants `1/8` and `-1/8`,
`v = 1/16`; the first decay step `1/16 - 1/8 = -1/16` is exact.  After one
frame with the turbo key and some look input, two more frames with no movement
key bring `InertiaDrag` back to its value after that frame. -/
theorem symmetric_decay_oscillates_when_exact_witness :
    (dyadicConfig.CAMERA_INERTIA_CONSUME_BACKWARD = 1 / 8 ∧
      dyadicConfig.CAMERA_INERTIA_CONSUME_FORWARD = -(1 / 8) ∧
      (1 / 16 : ℚ) ≠ 0 ∧ |(1 / 16 : ℚ)| < 1 / 8 ∧
      binaryRounding.r64 (1 / 16) = 1 / 16 ∧
      binaryRounding.r64 (1 / 16 + (if (0 : ℚ) < 1 / 16 then -(1 / 8) else 1 / 8)) =
        1 / 16 + (if (0 : ℚ) < 1 / 16 then -(1 / 8) else 1 / 8)) ∧
    (consumeInertiaRounded binaryRounding dyadicConfig
      (consumeInertiaRounded binaryRounding dyadicConfig (1 / 16)).1).1 = 1 / 16 ∧
    (runFramesRounded binaryRounding sampleExtern dyadicConfig (cameraWith (1 / 16) 0)
        ([⟨false, false, false, false, true, 1 / 8, 1 / 4⟩] ++
          [keysNone, ⟨false, false, false, false, false, 1 / 2, 0⟩])).InertiaDrag =
      (runFramesRounded binaryRounding sampleExtern dyadicConfig (cameraWith (1 / 16) 0)
        [⟨false, false, false, false, true, 1 / 8, 1 / 4⟩]).InertiaDrag :=
  have hexact : binaryRounding.r64 (1 / 16 + (if (0 : ℚ) < 1 / 16 then -(1 / 8) else 1 / 8)) =
      1 / 16 + (if (0 : ℚ) < 1 / 16 then -(1 / 8) else 1 / 8) := by
    have h : (1 / 16 + (if (0 : ℚ) < 1 / 16 then -(1 / 8) else 1 / 8) : ℚ) = -(1 / 16) := by
      norm_num
    rw [h]
    exact r64_neg_sixteenth
  have hthm := symmetric_decay_oscillates_when_exact binaryRounding sampleExtern dyadicConfig
    (1 / 8) (by norm_num [dyadicConfig]) (by norm_num [dyadicConfig]) (1 / 16) (by norm_num)
    (by norm_num [abs_of_pos]) r64_sixteenth hexact
  ⟨⟨by norm_num [dyadicConfig], by norm_num [dyadicConfig], by norm_num,
      by norm_num [abs_of_pos], r64_sixteenth, hexact⟩,
    hthm.1,
    (hthm.2.1 (cameraWith (1 / 16) 0) [⟨false, false, false, false, true, 1 / 8, 1 / 4⟩]
      keysNone ⟨false, false, false, false, false, 1 / 2, 0⟩ rfl
      (by simp [noMoveKey]) (by simp [noMoveKey, keysNone]) (by simp [noMoveKey])).2.2⟩

end RoundedDecay

section RoundedOpposite

/-- The number `-1` is a `float64` value. -/
theorem r64_neg_one : binaryRounding.r64 (-1) = -1 := by
  show roundBinary 53 (-1022) (-1) = -1
  rw [roundBinary_eval 53 (-1022) (-1) 0 (-4503599627370496) (by norm_num)
    (by norm_num) (by norm_num) (by norm_num) (by norm_num)]
  norm_num

/-- The number `1/4` is a `float64` value. -/
theorem r64_quarter : binaryRounding.r64 (1 / 4) = 1 / 4 := by
  show roundBinary 53 (-1022) (1 / 4) = 1 / 4
  rw [roundBinary_eval 53 (-1022) (1 / 4) (-2) 4503599627370496 (by norm_num)
    (by norm_num [abs_of_pos]) (by norm_num [abs_of_pos]) (by norm_num) (by norm_num)]
  norm_num

/-- The number `-1/4` is a `float64` value. -/
theorem r64_neg_quarter : binaryRounding.r64 (-(1 / 4)) = -(1 / 4) := by
  show roundBinary 53 (-1022) (-(1 / 4)) = -(1 / 4)
  rw [roundBinary_eval 53 (-1022) (-(1 / 4)) (-2) (-4503599627370496) (by norm_num)
    (by norm_num [abs_of_neg]) (by norm_num [abs_of_neg]) (by norm_num) (by norm_num)]
  norm_num

/-- The number `1/2` is a `float64` value. -/
theorem r64_half : binaryRounding.r64 (1 / 2) = 1 / 2 := by
  show roundBinary 53 (-1022) (1 / 2) = 1 / 2
  rw [roundBinary_eval 53 (-1022) (1 / 2) (-1) 4503599627370496 (by norm_num)
    (by norm_num [abs_of_pos]) (by norm_num [abs_of_pos]) (by norm_num) (by norm_num)]
  norm_num

/-- The number `3/4` is a `float64` value. -/
theorem r64_three_quarters : binaryRounding.r64 (3 / 4) = 3 / 4 := by
  show roundBinary 53 (-1022) (3 / 4) = 3 / 4
  rw [roundBinary_eval 53 (-1022) (3 / 4) (-1) 6755399441055744 (by norm_num)
    (by norm_num [abs_of_pos]) (by norm_num [abs_of_pos]) (by norm_num) (by norm_num)]
  norm_num

/-- The number `5/4` is a `float64` value. -/
theorem r64_five_quarters : binaryRounding.r64 (5 / 4) = 5 / 4 := by
  show roundBinary 53 (-1022) (5 / 4) = 5 / 4
  rw [roundBinary_eval 53 (-1022) (5 / 4) 0 5629499534213120 (by norm_num)
    (by norm_num [abs_of_pos]) (by norm_num [abs_of_pos]) (by norm_num) (by norm_num)]
  norm_num

variable {α : Type} [LinearOrderedField α]

/-- C19, amended: hold `MoveUp` and `MoveDown` with opposite increments
(`backward = -forward = -f`, `f > 0`) at celerity `c > 0`, the products
`f * c`, `-f * c` and `-1.0 * c` being exact in `float64`.  The two production
calls give the accumulator back `v` when the intermediate sum stays inside
the cap, `|v + f * c| ≤ c`, `v` is not below `-c`, and the sum `v + f * c` is
computed without rounding (`v` being a `float64` value).  At saturation they
do not cancel: from `v = c`, when the difference `c - f * c` is computed
without rounding, the accumulator after the two calls is `c - f * c` for
`f ≤ 2` and `-c` for `f > 2`, in both cases not `c`. -/
theorem opposite_keys_production_when_exact (R : Rounding α) (k : Config α) (f c : α)
    (hf : 0 < f) (hc : 0 < c)
    (hPF : k.CAMERA_INERTIA_PRODUCE_FORWARD = f) (hPB : k.CAMERA_INERTIA_PRODUCE_BACKWARD = -f)
    (hneg : R.r64 (-1 * c) = -c) (hfc : R.r64 (f * c) = f * c)
    (hnfc : R.r64 (-f * c) = -(f * c))
    (left right turbo : Bool) (wx wy : α) (CAMERA : CameraData α) :
    (|CAMERA.InertiaDrag + f * c| ≤ c → -c ≤ CAMERA.InertiaDrag →
      R.r64 (CAMERA.InertiaDrag + f * c) = CAMERA.InertiaDrag + f * c →
      R.r64 CAMERA.InertiaDrag = CAMERA.InertiaDrag →
      (produceFromKeysRounded R k ⟨true, true, left, right, turbo, wx, wy⟩ c CAMERA).InertiaDrag =
        CAMERA.InertiaDrag) ∧
    (CAMERA.InertiaDrag = c → c ≤ R.r64 (c + f * c) → R.r64 (c - f * c) = c - f * c →
      (f ≤ 2 →
        (produceFromKeysRounded R k ⟨true, true, left, right, turbo, wx, wy⟩ c
          CAMERA).InertiaDrag = c - f * c) ∧
      (2 < f →
        (produceFromKeysRounded R k ⟨true, true, left, right, turbo, wx, wy⟩ c
          CAMERA).InertiaDrag = -c) ∧
      (produceFromKeysRounded R k ⟨true, true, left, right, turbo, wx, wy⟩ c
        CAMERA).InertiaDrag ≠ c) := by
  have hpos : 0 < f * c := mul_pos hf hc
  rw [produceFromKeysRounded_InertiaDrag]
  simp only [if_true, hPF, hPB]
  constructor
  · intro hsum hlo hex hrep
    obtain ⟨h1, h2⟩ := abs_le.mp hsum
    have hfirst : produceInertiaRounded R CAMERA.InertiaDrag f c = CAMERA.InertiaDrag + f * c := by
      unfold produceInertiaRounded
      simp only [hfc, hex, hneg]
      rw [if_neg (not_lt.mpr h2), if_neg (not_lt.mpr h1)]
    have hcancel : CAMERA.InertiaDrag + f * c + -(f * c) = CAMERA.InertiaDrag := by ring
    rw [hfirst]
    unfold produceInertiaRounded
    simp only [hnfc, hcancel, hrep, hneg]
    rw [if_neg (by linarith), if_neg (by linarith)]
  · intro hv hsat hex
    have hfirst : produceInertiaRounded R CAMERA.InertiaDrag f c = c := by
      unfold produceInertiaRounded
      simp only [hfc, hv, hneg]
      split_ifs with h1 h2
      · rfl
      · linarith
      · exact le_antisymm (not_lt.mp h1) hsat
    have hdiff : c + -(f * c) = c - f * c := by ring
    rw [hfirst]
    unfold produceInertiaRounded
    simp only [hnfc, hdiff, hex, hneg]
    rw [if_neg (by linarith)]
    refine ⟨?_, ?_, ?_⟩
    · intro h2
      rw [if_neg (by nlinarith)]
    · intro h2
      rw [if_pos (by nlinarith)]
    · split_ifs <;> linarith

/-- C19 (amended) at `float64` values: celerity `1`, `f = 1/4`.  From the
accumulator `1/2` the two calls give back `1/2` (the products and the sum
`1/2 + 1/4` are exact); from the accumulator `1` they leave `1 - 1/4`. -/
theorem opposite_keys_production_when_exact_witness :
    ((0 : ℚ) < 1 / 4 ∧ (0 : ℚ) < 1 ∧ dyadicConfig.CAMERA_INERTIA_PRODUCE_FORWARD = 1 / 4 ∧
      dyadicConfig.CAMERA_INERTIA_PRODUCE_BACKWARD = -(1 / 4) ∧
      binaryRounding.r64 (-1 * 1) = -1 ∧ binaryRounding.r64 (1 / 4 * 1) = 1 / 4 * 1 ∧
      binaryRounding.r64 (-(1 / 4) * 1) = -(1 / 4 * 1) ∧
      |(cameraWith (1 / 2) 0 : CameraData ℚ).InertiaDrag + 1 / 4 * 1| ≤ 1 ∧
      -1 ≤ (cameraWith (1 / 2) 0 : CameraData ℚ).InertiaDrag ∧
      binaryRounding.r64 ((cameraWith (1 / 2) 0 : CameraData ℚ).InertiaDrag + 1 / 4 * 1) =
        (cameraWith (1 / 2) 0 : CameraData ℚ).InertiaDrag + 1 / 4 * 1 ∧
      binaryRounding.r64 (cameraWith (1 / 2) 0 : CameraData ℚ).InertiaDrag =
        (cameraWith (1 / 2) 0 : CameraData ℚ).InertiaDrag ∧
      (1 : ℚ) ≤ binaryRounding.r64 (1 + 1 / 4 * 1) ∧
      binaryRounding.r64 (1 - 1 / 4 * 1) = 1 - 1 / 4 * 1) ∧
    (produceFromKeysRounded binaryRounding dyadicConfig ⟨true, true, false, false, false, 0, 0⟩ 1
        (cameraWith (1 / 2) 0)).InertiaDrag = (cameraWith (1 / 2) 0 : CameraData ℚ).InertiaDrag ∧
    (produceFromKeysRounded binaryRounding dyadicConfig ⟨true, true, false, false, false, 0, 0⟩ 1
        (cameraWith 1 0)).InertiaDrag = 1 - 1 / 4 * 1 :=
  have h1 : binaryRounding.r64 (-1 * 1) = -1 := by
    rw [show (-1 * 1 : ℚ) = -1 by norm_num]
    exact r64_neg_one
  have h2 : binaryRounding.r64 (1 / 4 * 1) = 1 / 4 * 1 := by
    rw [show (1 / 4 * 1 : ℚ) = 1 / 4 by norm_num]
    exact r64_quarter
  have h3 : binaryRounding.r64 (-(1 / 4) * 1) = -(1 / 4 * 1) := by
    rw [show (-(1 / 4) * 1 : ℚ) = -(1 / 4) by norm_num, show (1 / 4 * 1 : ℚ) = 1 / 4 by norm_num]
    exact r64_neg_quarter
  have h4 : binaryRounding.r64 ((cameraWith (1 / 2) 0 : CameraData ℚ).InertiaDrag + 1 / 4 * 1) =
      (cameraWith (1 / 2) 0 : CameraData ℚ).InertiaDrag + 1 / 4 * 1 := by
    rw [show (cameraWith (1 / 2) 0 : CameraData ℚ).InertiaDrag + 1 / 4 * 1 = 3 / 4 by
      norm_num [cameraWith]]
    exact r64_three_quarters
  have h5 : binaryRounding.r64 (cameraWith (1 / 2) 0 : CameraData ℚ).InertiaDrag =
      (cameraWith (1 / 2) 0 : CameraData ℚ).InertiaDrag := r64_half
  have h6 : (1 : ℚ) ≤ binaryRounding.r64 (1 + 1 / 4 * 1) := by
    rw [show (1 + 1 / 4 * 1 : ℚ) = 5 / 4 by norm_num, r64_five_quarters]
    norm_num
  have h7 : binaryRounding.r64 (1 - 1 / 4 * 1) = 1 - 1 / 4 * 1 := by
    rw [show (1 - 1 / 4 * 1 : ℚ) = 3 / 4 by norm_num]
    exact r64_three_quarters
  ⟨⟨by norm_num, by norm_num, by norm_num [dyadicConfig], by norm_num [dyadicConfig], h1, h2, h3,
      by norm_num [cameraWith, abs_le], by norm_num [cameraWith], h4, h5, h6, h7⟩,
    (opposite_keys_production_when_exact binaryRounding dyadicConfig (1 / 4) 1 (by norm_num)
      (by norm_num) (by norm_num [dyadicConfig]) (by norm_num [dyadicConfig]) h1 h2 h3
      false false false 0 0 (cameraWith (1 / 2) 0)).1
      (by norm_num [cameraWith, abs_le]) (by norm_num [cameraWith]) h4 h5,
    ((opposite_keys_production_when_exact binaryRounding dyadicConfig (1 / 4) 1 (by norm_num)
      (by norm_num) (by norm_num [dyadicConfig]) (by norm_num [dyadicConfig]) h1 h2 h3
      false false false 0 0 (cameraWith 1 0)).2 rfl h6 h7).1 (by norm_num)⟩

end RoundedOpposite

section RoundedDiagonal

variable {α : Type} [LinearOrderedField α]

/-- The rounded consumption of a positive value. -/
theorem consumeInertiaRounded_pos (R : Rounding α) (k : Config α) (v : α) (hv : 0 < v) :
    consumeInertiaRounded R k v =
      (R.r64 (v + k.CAMERA_INERTIA_CONSUME_FORWARD),
        R.r64 (v + k.CAMERA_INERTIA_CONSUME_FORWARD)) := by
  rw [consumeInertiaRounded_eq, if_pos hv]

/-- The rounded consumption of `0`. -/
theorem consumeInertiaRounded_zero (R : Rounding α) (k : Config α) :
    consumeInertiaRounded R k 0 = (0, 0) := by
  rw [consumeInertiaRounded_eq]
  simp

/-- C5, amended: at a given celerity tier `c` with pitch `0`, let a diagonal
snapshot (two orthogonal keys) leave both accumulators, after production, at
the positive frame celerity `c' = float64(c / math.Sqrt(2.0))`, and let a
single-key snapshot of the same tier leave the accumulator of its key at the
positive cap `c` and the other at `0`.  Then the diagonal frame moves the eye
on both axes by `r' = c' + d` and the single-key frame moves it on the axis of
its key by `r = c + d` and on the other axis by `0`, where `d` is
`CAMERA_INERTIA_CONSUME_FORWARD` and the sums are `float64` sums; each
increment reaches the eye through `float32(·)` and a `float32` addition, on `z`
after the `float64` product with `math.Cos(0)`.  No equality of the two
displacement magnitudes follows. -/
theorem diagonal_displacement_rounded (R : Rounding α) (e : Extern α) (k : Config α)
    (kd ka : EventKeyState α)
    (hkd : (kd.MoveUp = true ∨ kd.MoveDown = true) ∧ (kd.MoveLeft = true ∨ kd.MoveRight = true))
    (hka : heldKeys ka = 1) (hturbo : kd.MoveTurbo = ka.MoveTurbo)
    (sd sa : CameraData α) (hpd : sd.PositionTarget.x = 0) (hpa : sa.PositionTarget.x = 0)
    (hcd : 0 < cameraCelerityRounded R e k kd) (hca : 0 < cameraCelerityRounded R e k ka)
    (hdd : (produceFromKeysRounded R k kd (cameraCelerityRounded R e k kd) sd).InertiaDrag =
      cameraCelerityRounded R e k kd)
    (hdt : (produceFromKeysRounded R k kd (cameraCelerityRounded R e k kd) sd).InertiaTurn =
      cameraCelerityRounded R e k kd)
    (hah : heldAccumulator ka (produceFromKeysRounded R k ka (cameraCelerityRounded R e k ka) sa) =
      cameraCelerityRounded R e k ka)
    (hai : idleAccumulator ka (produceFromKeysRounded R k ka (cameraCelerityRounded R e k ka) sa) =
      0) :
    cameraCelerityRounded R e k ka =
        (if ka.MoveTurbo = true then k.CAMERA_MOVE_CELERITY_TURBO
         else k.CAMERA_MOVE_CELERITY_CRUISE) ∧
    cameraCelerityRounded R e k kd = R.r64 (cameraCelerityRounded R e k ka / e.Sqrt 2) ∧
    (updateCameraRounded R e k kd sd).PositionEye =
      ⟨R.r32 (sd.PositionEye.x +
          R.r32 (R.r64 (cameraCelerityRounded R e k kd + k.CAMERA_INERTIA_CONSUME_FORWARD))),
        sd.PositionEye.y,
        R.r32 (sd.PositionEye.z +
          R.r32 (R.r64
            (R.r64 (cameraCelerityRounded R e k kd + k.CAMERA_INERTIA_CONSUME_FORWARD) *
              e.Cos 0)))⟩ ∧
    (updateCameraRounded R e k ka sa).PositionEye =
      ⟨R.r32 (sa.PositionEye.x +
          R.r32 (if ka.MoveUp = true ∨ ka.MoveDown = true then 0
            else R.r64 (cameraCelerityRounded R e k ka + k.CAMERA_INERTIA_CONSUME_FORWARD))),
        sa.PositionEye.y,
        R.r32 (sa.PositionEye.z +
          R.r32 (R.r64
            ((if ka.MoveUp = true ∨ ka.MoveDown = true then
                R.r64 (cameraCelerityRounded R e k ka + k.CAMERA_INERTIA_CONSUME_FORWARD)
              else 0) * e.Cos 0)))⟩ := by
  have hsingle : cameraCelerityRounded R e k ka =
      (if ka.MoveTurbo = true then k.CAMERA_MOVE_CELERITY_TURBO
       else k.CAMERA_MOVE_CELERITY_CRUISE) := by
    obtain ⟨up, down, left, right, turbo, wx, wy⟩ := ka
    unfold cameraCelerityRounded
    cases up <;> cases down <;> cases left <;> cases right <;> simp [heldKeys] at hka ⊢
  have hdiag : cameraCelerityRounded R e k kd =
      R.r64 (cameraCelerityRounded R e k ka / e.Sqrt 2) := by
    rw [hsingle, ← hturbo]
    unfold cameraCelerityRounded
    simp only
    rw [if_pos hkd]
  refine ⟨hsingle, hdiag, ?_, ?_⟩
  · rw [updateCameraRounded_PositionEye, hdd, hdt, consumeInertiaRounded_pos R k _ hcd, hpd]
  · rw [updateCameraRounded_PositionEye, hpa]
    simp only [heldAccumulator, idleAccumulator] at hah hai
    split_ifs at hah hai ⊢
    · rw [hah, hai, consumeInertiaRounded_pos R k _ hca, consumeInertiaRounded_zero]
    · rw [hah, hai, consumeInertiaRounded_pos R k _ hca, consumeInertiaRounded_zero]

/-- The diagonal cruise celerity in `float64`, with the `float64` value of
`math.Sqrt(2.0)`: `1 / Sqrt(2.0)` rounds to `6369051672525772 * 2^-53`. -/
theorem rounded_celerity_upLeft :
    cameraCelerityRounded binaryRounding sampleExtern dyadicConfig (keysUpLeft ℚ) =
      1592262918131443 / 2251799813685248 := by
  have h : cameraCelerityRounded binaryRounding sampleExtern dyadicConfig (keysUpLeft ℚ) =
      roundBinary 53 (-1022) (1 / (6369051672525773 / 4503599627370496)) := by
    simp [cameraCelerityRounded, keysUpLeft, dyadicConfig, sampleExtern, binaryRounding]
  rw [h, roundBinary_eval 53 (-1022) (1 / (6369051672525773 / 4503599627370496)) (-1)
    6369051672525772 (by norm_num) (by norm_num [abs_of_pos]) (by norm_num [abs_of_pos])
    (by norm_num) (by norm_num)]
  norm_num

/-- The single-key cruise celerity is `1`. -/
theorem rounded_celerity_up :
    cameraCelerityRounded binaryRounding sampleExtern dyadicConfig (keysUp ℚ) = 1 := by
  simp [cameraCelerityRounded, keysUp, dyadicConfig]

/-- A production call with increment `1/4` at the diagonal cruise celerity
takes the accumulator `1` to the cap. -/
theorem rounded_produce_diagonal_cap :
    produceInertiaRounded binaryRounding 1 (1 / 4) (1592262918131443 / 2251799813685248) =
      1592262918131443 / 2251799813685248 := by
  have h1 : binaryRounding.r64 (1 / 4 * (1592262918131443 / 2251799813685248)) =
      1592262918131443 / 9007199254740992 := by
    show roundBinary 53 (-1022) (1 / 4 * (1592262918131443 / 2251799813685248)) = _
    rw [roundBinary_eval 53 (-1022) (1 / 4 * (1592262918131443 / 2251799813685248)) (-3)
      6369051672525772 (by norm_num) (by norm_num [abs_of_pos]) (by norm_num [abs_of_pos])
      (by norm_num) (by norm_num)]
    norm_num
  have h2 : binaryRounding.r64 (1 + 1592262918131443 / 9007199254740992) =
      2649865543218109 / 2251799813685248 := by
    show roundBinary 53 (-1022) (1 + 1592262918131443 / 9007199254740992) = _
    rw [roundBinary_eval 53 (-1022) (1 + 1592262918131443 / 9007199254740992) 0
      5299731086436217 (by norm_num) (by norm_num [abs_of_pos]) (by norm_num [abs_of_pos])
      (by norm_num) (by norm_num)]
    norm_num
  unfold produceInertiaRounded
  simp only [h1, h2]
  rw [if_pos (by norm_num)]

/-- A production call with increment `1/4` at celerity `1` takes the
accumulator `1` to the cap. -/
theorem rounded_produce_single_cap : produceInertiaRounded binaryRounding 1 (1 / 4) 1 = 1 := by
  have h1 : binaryRounding.r64 (1 / 4 * 1) = 1 / 4 := by
    rw [show (1 / 4 * 1 : ℚ) = 1 / 4 by norm_num]
    exact r64_quarter
  have h2 : binaryRounding.r64 (1 + 1 / 4) = 5 / 4 := by
    rw [show (1 + 1 / 4 : ℚ) = 5 / 4 by norm_num]
    exact r64_five_quarters
  unfold produceInertiaRounded
  simp only [h1, h2]
  rw [if_pos (by norm_num)]

/-- Production saturates both accumulators of the camera `(1, 1)` under
`MoveUp` and `MoveLeft`. -/
theorem rounded_produce_upLeft :
    (produceFromKeysRounded binaryRounding dyadicConfig (keysUpLeft ℚ)
        (cameraCelerityRounded binaryRounding sampleExtern dyadicConfig (keysUpLeft ℚ))
        (cameraWith 1 1)).InertiaDrag =
      cameraCelerityRounded binaryRounding sampleExtern dyadicConfig (keysUpLeft ℚ) ∧
    (produceFromKeysRounded binaryRounding dyadicConfig (keysUpLeft ℚ)
        (cameraCelerityRounded binaryRounding sampleExtern dyadicConfig (keysUpLeft ℚ))
        (cameraWith 1 1)).InertiaTurn =
      cameraCelerityRounded binaryRounding sampleExtern dyadicConfig (keysUpLeft ℚ) := by
  rw [rounded_celerity_upLeft, produceFromKeysRounded_InertiaDrag,
    produceFromKeysRounded_InertiaTurn]
  simp only [keysUpLeft, dyadicConfig, cameraWith, if_true, Bool.false_eq_true, if_false]
  exact ⟨rounded_produce_diagonal_cap, rounded_produce_diagonal_cap⟩

/-- Production saturates the drag accumulator of the camera `(1, 0)` under
`MoveUp` and leaves the turn accumulator at `0`. -/
theorem rounded_produce_up :
    (produceFromKeysRounded binaryRounding dyadicConfig (keysUp ℚ)
        (cameraCelerityRounded binaryRounding sampleExtern dyadicConfig (keysUp ℚ))
        (cameraWith 1 0)).InertiaDrag =
      cameraCelerityRounded binaryRounding sampleExtern dyadicConfig (keysUp ℚ) ∧
    (produceFromKeysRounded binaryRounding dyadicConfig (keysUp ℚ)
        (cameraCelerityRounded binaryRounding sampleExtern dyadicConfig (keysUp ℚ))
        (cameraWith 1 0)).InertiaTurn = 0 := by
  rw [rounded_celerity_up, produceFromKeysRounded_InertiaDrag,
    produceFromKeysRounded_InertiaTurn]
  simp only [keysUp, dyadicConfig, cameraWith, if_true, Bool.false_eq_true, if_false]
  exact ⟨rounded_produce_single_cap, trivial⟩

/-- C5 (amended) at `float64` values: cruise celerity `1`, `math.Sqrt(2.0)` the
`float64` square root of two, increment `1/4`, decay `-1/8`; the camera
`(1, 1)` under `MoveUp` and `MoveLeft` and the camera `(1, 0)` under `MoveUp`,
both level. -/
theorem diagonal_displacement_rounded_witness :
    (heldKeys (keysUp ℚ) = 1 ∧
      0 < cameraCelerityRounded binaryRounding sampleExtern dyadicConfig (keysUpLeft ℚ) ∧
      0 < cameraCelerityRounded binaryRounding sampleExtern dyadicConfig (keysUp ℚ) ∧
      (produceFromKeysRounded binaryRounding dyadicConfig (keysUpLeft ℚ)
          (cameraCelerityRounded binaryRounding sampleExtern dyadicConfig (keysUpLeft ℚ))
          (cameraWith 1 1)).InertiaDrag =
        cameraCelerityRounded binaryRounding sampleExtern dyadicConfig (keysUpLeft ℚ) ∧
      (produceFromKeysRounded binaryRounding dyadicConfig (keysUp ℚ)
          (cameraCelerityRounded binaryRounding sampleExtern dyadicConfig (keysUp ℚ))
          (cameraWith 1 0)).InertiaDrag =
        cameraCelerityRounded binaryRounding sampleExtern dyadicConfig (keysUp ℚ)) ∧
    cameraCelerityRounded binaryRounding sampleExtern dyadicConfig (keysUpLeft ℚ) =
      binaryRounding.r64
        (cameraCelerityRounded binaryRounding sampleExtern dyadicConfig (keysUp ℚ) /
          sampleExtern.Sqrt 2) ∧
    (updateCameraRounded binaryRounding sampleExtern dyadicConfig (keysUpLeft ℚ)
        (cameraWith 1 1)).PositionEye =
      ⟨binaryRounding.r32 ((cameraWith 1 1 : CameraData ℚ).PositionEye.x +
          binaryRounding.r32 (binaryRounding.r64
            (cameraCelerityRounded binaryRounding sampleExtern dyadicConfig (keysUpLeft ℚ) +
              dyadicConfig.CAMERA_INERTIA_CONSUME_FORWARD))),
        (cameraWith 1 1 : CameraData ℚ).PositionEye.y,
        binaryRounding.r32 ((cameraWith 1 1 : CameraData ℚ).PositionEye.z +
          binaryRounding.r32 (binaryRounding.r64
            (binaryRounding.r64
              (cameraCelerityRounded binaryRounding sampleExtern dyadicConfig (keysUpLeft ℚ) +
                dyadicConfig.CAMERA_INERTIA_CONSUME_FORWARD) * sampleExtern.Cos 0)))⟩ :=
  have hcd : 0 < cameraCelerityRounded binaryRounding sampleExtern dyadicConfig (keysUpLeft ℚ) := by
    rw [rounded_celerity_upLeft]
    norm_num
  have hca : 0 < cameraCelerityRounded binaryRounding sampleExtern dyadicConfig (keysUp ℚ) := by
    rw [rounded_celerity_up]
    norm_num
  have hone : heldKeys (keysUp ℚ) = 1 := by simp [heldKeys, keysUp]
  have hthm := diagonal_displacement_rounded binaryRounding sampleExtern dyadicConfig
    (keysUpLeft ℚ) (keysUp ℚ) (by simp [keysUpLeft]) hone rfl (cameraWith 1 1) (cameraWith 1 0)
    rfl rfl hcd hca rounded_produce_upLeft.1 rounded_produce_upLeft.2
    (by
      rw [show heldAccumulator (keysUp ℚ)
          (produceFromKeysRounded binaryRounding dyadicConfig (keysUp ℚ)
            (cameraCelerityRounded binaryRounding sampleExtern dyadicConfig (keysUp ℚ))
            (cameraWith 1 0)) =
        (produceFromKeysRounded binaryRounding dyadicConfig (keysUp ℚ)
            (cameraCelerityRounded binaryRounding sampleExtern dyadicConfig (keysUp ℚ))
            (cameraWith 1 0)).InertiaDrag from if_pos (Or.inl rfl)]
      exact rounded_produce_up.1)
    (by
      rw [show idleAccumulator (keysUp ℚ)
          (produceFromKeysRounded binaryRounding dyadicConfig (keysUp ℚ)
            (cameraCelerityRounded binaryRounding sampleExtern dyadicConfig (keysUp ℚ))
            (cameraWith 1 0)) =
        (produceFromKeysRounded binaryRounding dyadicConfig (keysUp ℚ)
            (cameraCelerityRounded binaryRounding sampleExtern dyadicConfig (keysUp ℚ))
            (cameraWith 1 0)).InertiaTurn from if_pos (Or.inl rfl)]
      exact rounded_produce_up.2)
  ⟨⟨hone, hcd, hca, rounded_produce_upLeft.1, rounded_produce_up.1⟩, hthm.2.1, hthm.2.2.1⟩

end RoundedDiagonal

end Callisto
